import Mathlib

/-!
Verification of the incremental knowledge pipeline of the openaugi repository
(experiments/augi-engine-v0/backend). The Python sources are shallowly embedded:
LanceDB tables become lists of rows inside a `KnowledgeStore` record, the LLM /
embedding / clustering libraries become oracle parameters, exceptions become
`Except`/`Option`, and machine floats become `Rat` (the claims under study are
structural and do not depend on float rounding).
-/

set_option maxRecDepth 10000

/-- Embedding vectors (Python lists of floats) are modelled as lists of rationals;
none of the verified properties depends on floating-point rounding. -/
abbrev Vec := List Rat

/-- Metadata dictionary of a llama-index `Document`, restricted to the keys the
backend reads or writes. Python distinguishes a missing key from a key holding
`None`; for the `embedding` key this matters (`"embedding" in metadata` is the
validation check in storage.py), so that field is `Option (Option Vec)`:
`none` = key absent, `some none` = key present holding `None`,
`some (some v)` = key present holding a vector. -/
structure Metadata where
  embedding : Option (Option Vec) := none
  embedding_error : Option String := none
  source_doc_id : Option String := none
  source_doc_title : Option String := none
  source_doc_path : Option String := none
  idea_title : Option String := none
  links : List String := []
  file_path : Option String := none
  title : Option String := none
  is_user_edited : Bool := false
  sibling_notes : List String := []
  key_concepts : List String := []
  is_atomic_idea : Bool := false
deriving Repr, DecidableEq

/-- Shallow embedding of `llama_index.core.schema.Document`: the fields the
backend uses are `doc_id`, `text` and `metadata`. -/
structure Document where
  doc_id : String
  text : String
  metadata : Metadata
deriving Repr, DecidableEq

/-- Row of the `raw_documents` LanceDB table (storage.py, `save_raw_document`).
Timestamp columns (`modified_time`, `processed_time`) are wall-clock values
irrelevant to every claim and are omitted; `metadata_json` (a serialized blob)
is likewise omitted. -/
structure RawRow where
  id : String
  text : String
  filepath : String
  is_processed : Bool
  vector : Option Vec
deriving Repr, DecidableEq

/-- Row of the `atomic_notes` LanceDB table (storage.py, `save_atomic_note`). -/
structure AtomicRow where
  id : String
  text : String
  idea_title : String
  source_doc_ids : List String
  vector : Option Vec
  links : List String
deriving Repr, DecidableEq

/-- Row of the `clean_notes` LanceDB table (storage.py, `save_clean_note`). -/
structure CleanRow where
  id : String
  text : String
  title : String
  atomic_note_ids : List String
  is_user_edited : Bool
  vector : Option Vec
  sibling_notes : List String
deriving Repr, DecidableEq

/-- The `KnowledgeStore` state: one optional list of rows per LanceDB table.
`none` models a table that does not exist yet (tables are created lazily on
first write; lookups on a missing table return empty results, not errors). -/
structure KnowledgeStore where
  raw_documents : Option (List RawRow)
  atomic_notes : Option (List AtomicRow)
  clean_notes : Option (List CleanRow)
deriving Repr, DecidableEq

/-- The rows of the raw table, empty when the table does not exist. -/
def KnowledgeStore.rawRows (s : KnowledgeStore) : List RawRow :=
  s.raw_documents.getD []

/-- The rows of the atomic table, empty when the table does not exist. -/
def KnowledgeStore.atomicRows (s : KnowledgeStore) : List AtomicRow :=
  s.atomic_notes.getD []

/-- The rows of the clean table, empty when the table does not exist. -/
def KnowledgeStore.cleanRows (s : KnowledgeStore) : List CleanRow :=
  s.clean_notes.getD []

/-- A store with no tables at all (a freshly connected database). -/
def emptyStore : KnowledgeStore := ⟨none, none, none⟩

/-- storage.py `KnowledgeStore.save_raw_document`: requires the `"embedding"`
metadata key (else `ValueError`); on first write the table-creation branch
computes `len(document.metadata["embedding"])` for the vector column
(storage.py:62), which raises `TypeError` when the value under the key is
`None`; otherwise it inserts a new row only when no row with the same id
exists, and returns the id either way (the duplicate branch is an explicit
no-op). -/
def save_raw_document (document : Document) (s : KnowledgeStore) :
    Except String (String × KnowledgeStore) :=
  match document.metadata.embedding with
  | none => .error "Document must have an embedding before saving to LanceDB"
  | some emb =>
    if s.raw_documents.isNone && emb.isNone then
      .error "object of type NoneType has no len()"
    else
    let doc_id := document.doc_id
    let filepath := document.metadata.file_path.getD ""
    let rows := s.rawRows
    if rows.any (fun r => r.id == doc_id) then
      .ok (doc_id, { s with raw_documents := some rows })
    else
      let rows2 := rows ++ [⟨doc_id, document.text, filepath, false, emb⟩]
      .ok (doc_id, { s with raw_documents := some rows2 })

/-- storage.py `KnowledgeStore.save_raw_documents`: saves each document in
order; an exception from any single save propagates. -/
def save_raw_documents (documents : List Document) (s : KnowledgeStore) :
    Except String (List String × KnowledgeStore) :=
  match documents with
  | [] => .ok ([], s)
  | d :: rest =>
    match save_raw_document d s with
    | .error e => .error e
    | .ok (id, s1) =>
      match save_raw_documents rest s1 with
      | .error e => .error e
      | .ok (ids, s2) => .ok (id :: ids, s2)

/-- storage.py `KnowledgeStore.mark_raw_document_processed`: no-op when the
table or the row is missing; otherwise deletes every row with the id and
re-adds the first found row with `is_processed = True`. -/
def mark_raw_document_processed (doc_id : String) (s : KnowledgeStore) :
    KnowledgeStore :=
  match s.raw_documents with
  | none => s
  | some rows =>
    match rows.find? (fun r => r.id == doc_id) with
    | none => s
    | some row =>
      let rows2 := rows.filter (fun r => !(r.id == doc_id)) ++
        [{ row with is_processed := true }]
      { s with raw_documents := some rows2 }

/-- storage.py `KnowledgeStore.has_processed_document`: queries the RAW table
for `id = raw_doc_id AND is_processed = true`; the atomic table and its
provenance lists are never consulted. -/
def has_processed_document (raw_doc_id : String) (s : KnowledgeStore) : Bool :=
  match s.raw_documents with
  | none => false
  | some rows => rows.any (fun r => r.id == raw_doc_id && r.is_processed)

/-- The provenance list written by storage.py `save_atomic_note`:
`source_doc_id = note.metadata.get("source_doc_id", "")` followed by
`[source_doc_id] if source_doc_id else []`. -/
def source_doc_ids_of (m : Metadata) : List String :=
  let source_doc_id := m.source_doc_id.getD ""
  if source_doc_id == "" then [] else [source_doc_id]

/-- storage.py `KnowledgeStore.save_atomic_note`: requires the `"embedding"`
metadata key (else `ValueError`); on first write the table-creation branch
computes `len(note.metadata["embedding"])` for the vector column
(storage.py:173), which raises `TypeError` when the value under the key is
`None` — an existing table never inspects the value. The note id comes from
`note.doc_id or str(uuid.uuid4())` (the fresh uuid is the `fresh` parameter)
and a row is appended; no source-document-id validation and no
embedding-nonemptiness check is performed. -/
def save_atomic_note (fresh : String) (note : Document) (s : KnowledgeStore) :
    Except String (String × KnowledgeStore) :=
  match note.metadata.embedding with
  | none => .error "Atomic note must have an embedding before saving to LanceDB"
  | some emb =>
    if s.atomic_notes.isNone && emb.isNone then
      .error "object of type NoneType has no len()"
    else
    let rows := s.atomicRows
    let note_id := if note.doc_id == "" then fresh else note.doc_id
    let row : AtomicRow :=
      ⟨note_id, note.text, note.metadata.idea_title.getD "",
       source_doc_ids_of note.metadata, emb, note.metadata.links⟩
    .ok (note_id, { s with atomic_notes := some (rows ++ [row]) })

/-- storage.py `KnowledgeStore.save_atomic_notes`: saves each note in order
(`fresh i` supplies the uuid for the i-th note); an exception from any single
save propagates to the caller. -/
def save_atomic_notes (fresh : Nat → String) (notes : List Document)
    (s : KnowledgeStore) : Except String (List String × KnowledgeStore) :=
  match notes with
  | [] => .ok ([], s)
  | n :: rest =>
    match save_atomic_note (fresh 0) n s with
    | .error e => .error e
    | .ok (id, s1) =>
      match save_atomic_notes (fun i => fresh (i + 1)) rest s1 with
      | .error e => .error e
      | .ok (ids, s2) => .ok (id :: ids, s2)

/-- storage.py `KnowledgeStore.save_clean_note`: requires the `"embedding"`
metadata key; on first write the table-creation branch computes
`len(note.metadata["embedding"])` (storage.py:290), raising `TypeError` on a
`None` value; otherwise appends a row carrying the given `atomic_note_ids`
provenance. -/
def save_clean_note (fresh : String) (note : Document)
    (atomic_note_ids : List String) (s : KnowledgeStore) :
    Except String (String × KnowledgeStore) :=
  match note.metadata.embedding with
  | none => .error "Clean note must have an embedding before saving to LanceDB"
  | some emb =>
    if s.clean_notes.isNone && emb.isNone then
      .error "object of type NoneType has no len()"
    else
    let rows := s.cleanRows
    let note_id := if note.doc_id == "" then fresh else note.doc_id
    let row : CleanRow :=
      ⟨note_id, note.text, note.metadata.title.getD "", atomic_note_ids,
       note.metadata.is_user_edited, emb, note.metadata.sibling_notes⟩
    .ok (note_id, { s with clean_notes := some (rows ++ [row]) })

/-- storage.py `KnowledgeStore.save_clean_notes`: saves each note with the
provenance looked up in `atomic_note_ids_map` by the note id (default `[]`). -/
def save_clean_notes (fresh : Nat → String) (notes : List Document)
    (atomic_note_ids_map : List (String × List String)) (s : KnowledgeStore) :
    Except String (List String × KnowledgeStore) :=
  match notes with
  | [] => .ok ([], s)
  | n :: rest =>
    match save_clean_note (fresh 0) n
        ((atomic_note_ids_map.lookup n.doc_id).getD []) s with
    | .error e => .error e
    | .ok (id, s1) =>
      match save_clean_notes (fun i => fresh (i + 1)) rest
          atomic_note_ids_map s1 with
      | .error e => .error e
      | .ok (ids, s2) => .ok (id :: ids, s2)

/-- storage.py `KnowledgeStore.get_already_distilled_note_ids`: scans the clean
table (capped at 10000 rows by the `limit(10000)` query) and unions all
`atomic_note_ids` provenance lists. The Python set is modelled as a list whose
membership is the set membership. -/
def get_already_distilled_note_ids (s : KnowledgeStore) : List String :=
  match s.clean_notes with
  | none => []
  | some rows => (rows.take 10000).flatMap (fun r => r.atomic_note_ids)

/-- Structural worker for `list_chunks`: the fuel argument dominates the
length of the remaining list, so the fuel-exhausted branch is unreachable for
a positive chunk size (both call sites use the positive constants 8000 and
20); it exists only to make the recursion structural, hence kernel-reducible. -/
def list_chunks_aux (n : Nat) : Nat → List α → List (List α)
  | _, [] => []
  | 0, l => [l]
  | fuel + 1, x :: xs =>
    ((x :: xs).take n) :: list_chunks_aux n fuel ((x :: xs).drop n)

/-- Fixed-size chunking of a list (`text[i:i+max_chars]` slices in embedder.py
and the `_process_in_chunks` generator in main.py). -/
def list_chunks (n : Nat) (l : List α) : List (List α) :=
  list_chunks_aux n l.length l

/-- Character chunks of a string (embedder.py `_embed_large_document`:
`[text[i:i+max_chars] for i in range(0, len(text), max_chars)]`). -/
def string_chunks (n : Nat) (text : String) : List String :=
  (list_chunks n text.toList).map (fun l => String.mk l)

/-- Element-wise average of embedding vectors (embedder.py:
`[sum(values) / len(values) for values in zip(*chunk_embeddings)]`).
`zip(*l)` truncates to the shortest row; each produced tuple has one entry per
row, so the divisor is the number of rows. -/
def average_embeddings (l : List Vec) : Vec :=
  match l with
  | [] => []
  | r :: rs =>
    let m := rs.foldl (fun acc row => Nat.min acc row.length) r.length
    (List.range m).map (fun i => ((l.filterMap (fun row => row[i]?)).sum) / (l.length : Rat))

/-- embedder.py `LlamaIndexEmbedder._embed_large_document`: splits the text
into chunks of `max_chars` characters, embeds each chunk through the external
embedding capability (`embed_one`; `.error` models a raised exception), keeps
only the successful chunks, raises `ValueError` when every chunk failed, and
otherwise averages the successful chunk embeddings. -/
def embed_large_document (embed_one : String → Except String Vec)
    (text : String) (max_chars : Nat) : Except String Vec :=
  let chunks := string_chunks max_chars text
  let chunk_embeddings := chunks.filterMap (fun c => (embed_one c).toOption)
  if chunk_embeddings = [] then
    .error "Failed to generate embeddings for any chunk"
  else
    .ok (average_embeddings chunk_embeddings)

/-- Python whitespace class membership (`str.strip()` and `\s`); the
vertical-tab / form-feed / non-ASCII members of the Python class do not occur
in any input considered here. -/
def isPyWS (c : Char) : Bool := c.isWhitespace

/-- Python `str.strip()`: drop leading and trailing whitespace. Implemented on
the character list so that it reduces inside the kernel. -/
def python_strip (s : String) : String :=
  String.mk (((s.toList.dropWhile isPyWS).reverse.dropWhile isPyWS).reverse)

/-- Mark a document as failed to embed (embedder.py: sets
`metadata["embedding"] = None` and `metadata["embedding_error"]`). -/
def mark_embed_failed (doc : Document) (msg : String) : Document :=
  { doc with metadata :=
    { doc.metadata with embedding := some none, embedding_error := some msg } }

/-- Attach a successfully computed embedding to a document. -/
def set_embedding (doc : Document) (v : Vec) : Document :=
  { doc with metadata := { doc.metadata with embedding := some (some v) } }

/-- Per-document body of embedder.py `LlamaIndexEmbedder.embed_documents`:
empty/whitespace text is marked failed with the fixed error string (the
`isinstance` half of the guard cannot fire here because `text` is a `String`
by construction); short texts are embedded directly; texts over 8000
characters go through chunking and averaging; any raised exception is caught
and converted to the failure marking. -/
def embed_document (embed_one : String → Except String Vec) (doc : Document) :
    Document :=
  if python_strip doc.text == "" then
    mark_embed_failed doc "Invalid or empty text"
  else if doc.text.length ≤ 8000 then
    match embed_one doc.text with
    | .ok e => set_embedding doc e
    | .error msg => mark_embed_failed doc msg
  else
    match embed_large_document embed_one doc.text 8000 with
    | .ok e => set_embedding doc e
    | .error msg => mark_embed_failed doc msg

/-- embedder.py `LlamaIndexEmbedder.embed_documents`: processes every document
individually (mutating it in place and returning the same list, hence same
length and order); no document is ever dropped. -/
def embed_documents (embed_one : String → Except String Vec)
    (documents : List Document) : List Document :=
  documents.map (embed_document embed_one)

/-- Configuration of clusterer.py `UMAPHDBSCANClusterer.__init__` (defaults as
in the source; `umap_min_dist` and `random_state` are forwarded untouched to
the external libraries). -/
structure ClustererConfig where
  umap_n_components : Nat := 30
  umap_n_neighbors : Nat := 15
  umap_min_dist : Rat := 1 / 20
  hdbscan_min_cluster_size : Nat := 5
  hdbscan_min_samples : Nat := 2
  random_state : Nat := 42
deriving Repr, DecidableEq

/-- clusterer.py `UMAPHDBSCANClusterer._adjust_parameters`: caps each parameter
at a fraction of the document count and floors it at a small constant. -/
def adjust_parameters (c : ClustererConfig) (num_documents : Nat) :
    Nat × Nat × Nat × Nat :=
  let n_components := Nat.max 2 (Nat.min (num_documents / 2) c.umap_n_components)
  let n_neighbors := Nat.max 2 (Nat.min (num_documents / 3) c.umap_n_neighbors)
  let min_cluster_size :=
    Nat.max 2 (Nat.min (num_documents / 4) c.hdbscan_min_cluster_size)
  let min_samples := Nat.max 1 (Nat.min (num_documents / 5) c.hdbscan_min_samples)
  (n_components, n_neighbors, min_cluster_size, min_samples)

/-- clusterer.py `UMAPHDBSCANClusterer._extract_embeddings`: raises
`ValueError` as soon as a document lacks the embedding key in its metadata;
otherwise collects the values (which may be `None`) in document order. -/
def extract_embeddings (documents : List Document) :
    Except String (List (Option Vec)) :=
  documents.mapM (fun d =>
    match d.metadata.embedding with
    | none => .error ("Document " ++ d.doc_id ++ " missing embedding in metadata")
    | some v => .ok v)

/-- First-occurrence deduplication of cluster labels with an accumulator of
labels already emitted: the iteration order of the Python dict built in
`cluster_documents` (one key per distinct label). -/
def dedup_keys_aux (seen : List Int) : List Int → List Int
  | [] => []
  | k :: ks =>
    if seen.contains k then dedup_keys_aux seen ks
    else k :: dedup_keys_aux (k :: seen) ks

/-- First occurrence of each label, in order. -/
def dedup_keys (l : List Int) : List Int := dedup_keys_aux [] l

/-- clusterer.py `cluster_documents`, grouping phase: builds an
insertion-ordered dict from label to documents, then emits the groups in
ascending label order (`sorted(clusters.keys())`). -/
def group_by_label (documents : List Document) (cluster_labels : List Int) :
    List (List Document) :=
  let pairs := cluster_labels.zip documents
  let keys := (dedup_keys (pairs.map (fun p => p.1))).mergeSort
    (fun a b => decide (a ≤ b))
  keys.map (fun k => (pairs.filter (fun p => p.1 == k)).map (fun p => p.2))

/-- The sklearn `AgglomerativeClustering(n_clusters=None,
distance_threshold=0.5, linkage=average, affinity=cosine).fit_predict` call
of the small-dataset branch of clusterer.py. Before any clustering, sklearn
input validation deterministically raises `ValueError`: on fewer than 2
samples (a pairwise estimator validates with `ensure_min_samples=2`), on a
null entry (`np.array` over a list containing `None` is a non-numeric object
array rejected by `check_array`), and on ragged rows (no rectangular numeric
2d array exists). Only a validated input reaches the labelling capability
`agg_labels`, which stands for the clustering computation itself. -/
def agglomerative_fit_predict (agg_labels : List (Option Vec) → List Int)
    (embeddings : List (Option Vec)) : Except String (List Int) :=
  if embeddings.length < 2 then
    .error "Found array with less than 2 samples while a minimum of 2 is required"
  else if embeddings.any (fun e => e.isNone) then
    .error "Input contains NaN or a non-numeric value"
  else if !(embeddings.all (fun e1 => embeddings.all (fun e2 =>
      (e1.getD []).length == (e2.getD []).length))) then
    .error "setting an array element with a sequence"
  else
    .ok (agg_labels embeddings)

/-- clusterer.py `UMAPHDBSCANClusterer.cluster_documents`: empty input yields
no clusters; embeddings are extracted (raising when a document lacks the key);
with at most 5 documents dimensionality reduction is skipped and
`agglomerative_fit_predict` labels the raw embedding vectors directly (its
sklearn validation may raise); larger inputs go through the UMAP+HDBSCAN
capability (`umap_hdbscan_labels`, validation and all) with the size-adjusted
parameters. The labels (noise labels included) are then grouped into output
clusters. -/
def cluster_documents
    (agg_labels : List (Option Vec) → List Int)
    (umap_hdbscan_labels : Nat × Nat × Nat × Nat → List (Option Vec) → List Int)
    (c : ClustererConfig) (documents : List Document) :
    Except String (List (List Document)) :=
  if documents = [] then .ok []
  else
    match extract_embeddings documents with
    | .error e => .error e
    | .ok embeddings =>
      let params := adjust_parameters c documents.length
      if documents.length ≤ 5 then
        match agglomerative_fit_predict agg_labels embeddings with
        | .error e => .error e
        | .ok cluster_labels => .ok (group_by_label documents cluster_labels)
      else
        .ok (group_by_label documents (umap_hdbscan_labels params embeddings))

/-- Atom of the regular expressions used in atomic_extractor.py
`split_into_sections`: a greedy one-or-more character class, a greedy
zero-or-more character class, or a literal character sequence. -/
inductive RAtom where
  | plus (cls : Char → Bool)
  | star (cls : Char → Bool)
  | lit (l : List Char)

/-- Greedy backtracking matcher for a sequence of atoms anchored at the start
of `cs`, returning the number of characters consumed by the first match in
Python preference order (earlier atoms consume as much as possible first). -/
def match_atoms : List RAtom → List Char → Option Nat
  | [], _ => some 0
  | .lit l :: atoms, cs =>
    if l.isPrefixOf cs then
      (match_atoms atoms (cs.drop l.length)).map (fun n => l.length + n)
    else none
  | .plus cls :: atoms, cs =>
    let m := (cs.takeWhile cls).length
    (List.range m).findSome? (fun i =>
      (match_atoms atoms (cs.drop (m - i))).map (fun n => (m - i) + n))
  | .star cls :: atoms, cs =>
    let m := (cs.takeWhile cls).length
    (List.range (m + 1)).findSome? (fun i =>
      (match_atoms atoms (cs.drop (m - i))).map (fun n => (m - i) + n))

/-- First match among regex alternatives (Python `|` tries left first). -/
def match_alts (alts : List (List RAtom)) (cs : List Char) : Option Nat :=
  alts.findSome? (fun a => match_atoms a cs)

/-- Scanner of Python `re.split`: walks left to right, cuts a piece at every
leftmost non-overlapping match and resumes after it. A zero-width match is
treated as no match; every marker pattern below starts with a mandatory
character, so that case is unreachable for them. -/
def re_split_aux (alts : List (List RAtom)) :
    Nat → List Char → List Char → List (List Char)
  | _, [], acc => [acc.reverse]
  | 0, remaining, acc => [acc.reverse ++ remaining]
  | fuel + 1, c :: rest, acc =>
    match match_alts alts (c :: rest) with
    | some n =>
      if n = 0 then re_split_aux alts fuel rest (c :: acc)
      else acc.reverse :: re_split_aux alts fuel ((c :: rest).drop n) []
    | none => re_split_aux alts fuel rest (c :: acc)

/-- Python `re.split(pattern, text)` for the marker patterns. The fuel
argument of the scanner starts at the text length, which dominates the
remaining-characters count throughout (every step consumes at least one
character), so the fuel-exhausted branch is unreachable; it exists only to
make the recursion structural. -/
def re_split (alts : List (List RAtom)) (text : String) : List String :=
  (re_split_aux alts text.toList.length text.toList []).map (fun l => String.mk l)

/-- Newline character class. -/
def isNL (c : Char) : Bool := c == '\n'

/-- Python `\s` whitespace class (same class as `isPyWS`). -/
def isWS (c : Char) : Bool := isPyWS c

/-- Hash-mark character class (`#+` in the heading marker). -/
def isHashChar (c : Char) : Bool := c == '#'

/-- Decimal digit class (`\d`). -/
def isDigitChar (c : Char) : Bool := c.isDigit

/-- Marker 1 of `split_into_sections`: markdown headings
(`\n+\s*#+\s+`). -/
def marker_headings : List (List RAtom) :=
  [[.plus isNL, .star isWS, .plus isHashChar, .plus isWS]]

/-- Marker 2: explicit section labels (`\n+\s*Section\s+\d+`). -/
def marker_section_labels : List (List RAtom) :=
  [[.plus isNL, .star isWS, .lit "Section".toList, .plus isWS, .plus isDigitChar]]

/-- Marker 3: topic markers (`\n+\s*Topic\s*:|\n+\s*Subject\s*:`). -/
def marker_topic : List (List RAtom) :=
  [[.plus isNL, .star isWS, .lit "Topic".toList, .star isWS, .lit [':']],
   [.plus isNL, .star isWS, .lit "Subject".toList, .star isWS, .lit [':']]]

/-- Marker 4: paragraph breaks (`\n{2,}`). -/
def marker_paragraphs : List (List RAtom) :=
  [[.lit ['\n'], .plus isNL]]

/-- The marker list of atomic_extractor.py `split_into_sections`, in source
order. -/
def section_markers : List (List (List RAtom)) :=
  [marker_headings, marker_section_labels, marker_topic, marker_paragraphs]

/-- atomic_extractor.py `SimpleLLMAtomicExtractor.split_into_sections`: the
first marker that splits the text into more than one piece wins and the pieces
are stripped and empty pieces dropped; when no marker splits, the external
`SentenceSplitter` capability (`chunk_split`) provides the chunks. -/
def split_into_sections (chunk_split : String → List String) (text : String) :
    List String :=
  match section_markers.findSome? (fun m =>
      let sections := re_split m text
      if sections.length > 1 then some sections else none) with
  | some sections => (sections.map python_strip).filter (fun s => !(s == ""))
  | none => chunk_split text

/-- An atomic-idea draft as parsed from the LLM JSON: a Python dict whose
`title` and `description` keys may be MISSING. `clean_llm_json_response`
returns any syntactically valid JSON as-is, so a truthy, non-empty list of
ill-shaped objects flows onward and every later `idea["title"]` or
`idea["description"]` subscript raises `KeyError`. -/
structure IdeaDict where
  title : Option String := none
  description : Option String := none
  links : List String := []
deriving Repr, DecidableEq

/-- An idea dict carrying both the `title` and the `description` key — the
shape assumed by every subscript access in atomic_extractor.py. -/
def IdeaDict.wellformed (idea : IdeaDict) : Prop :=
  ¬ (idea.title = none) ∧ ¬ (idea.description = none)

/-- atomic_extractor.py `SimpleLLMAtomicExtractor._create_fallback_idea`:
exactly one degenerate draft whose title is the fixed placeholder and whose
description is the section text truncated to its first 100 characters. -/
def create_fallback_idea (sec : String) : List IdeaDict :=
  [{ title := some "Section content",
     description := some (if sec.length > 100 then
       String.mk (sec.toList.take 100) ++ "..." else sec),
     links := [] }]

/-- atomic_extractor.py `SimpleLLMAtomicExtractor.extract_section_ideas`:
`section_oracle` is the composition of the LLM call and
`clean_llm_json_response` on (global summary, section); `none` covers both a
parse failure and a raised exception, and both routes fall back to the single
degenerate draft, as does a parsed-but-empty list. A parsed, non-empty but
ill-shaped list is truthy and is returned AS-IS. -/
def extract_section_ideas (section_oracle : String → String → Option (List IdeaDict))
    (global_summary : String) (sec : String) : List IdeaDict :=
  match section_oracle global_summary sec with
  | some ideas => if ideas.length > 0 then ideas else create_fallback_idea sec
  | none => create_fallback_idea sec

/-- The `IDEA i+1: title - description` context lines of `deduplicate_ideas`
(atomic_extractor.py lines 242-247): the `idea["title"]` and
`idea["description"]` subscripts raise `KeyError` on the first ill-shaped
idea, and the comprehension runs OUTSIDE the try/except of
`deduplicate_ideas`, so the error escapes the function. -/
def ideas_context_lines (i : Nat) : List IdeaDict → Except String (List String)
  | [] => .ok []
  | idea :: rest =>
    match idea.title with
    | none => .error "KeyError: title"
    | some t =>
      match idea.description with
      | none => .error "KeyError: description"
      | some descr =>
        match ideas_context_lines (i + 1) rest with
        | .error e => .error e
        | .ok lines =>
          .ok (("IDEA " ++ toString (i + 1) ++ ": " ++ t ++ " - " ++ descr) :: lines)

/-- atomic_extractor.py `SimpleLLMAtomicExtractor.deduplicate_ideas`: empty
input short-circuits to `[]`; the context built from `idea["title"]` and
`idea["description"]` raises on ill-shaped ideas BEFORE the try/except, so
that error propagates to the document-level handler; otherwise the LLM-based
capability (a function of the prompt context) may merge drafts, a failed or
falsy result falling back to the un-deduplicated input (fail-open). -/
def deduplicate_ideas (dedup_oracle : List String → Option (List IdeaDict))
    (all_ideas : List IdeaDict) : Except String (List IdeaDict) :=
  if all_ideas = [] then .ok []
  else
    match ideas_context_lines 0 all_ideas with
    | .error e => .error e
    | .ok ctx =>
      match dedup_oracle ctx with
      | some result => .ok (if result = [] then all_ideas else result)
      | none => .ok all_ideas

/-- Conversion of one parsed idea (both keys present) into an atomic-note
`Document` carrying provenance metadata (`extract_atomic_ideas`, idea loop).
The llama-index constructor mints a fresh internal id; no claim depends on
it, so it is left empty here. -/
def idea_to_document (doc : Document) (t descr : String) (links : List String) :
    Document :=
  { doc_id := "",
    text := descr,
    metadata := { source_doc_id := some doc.doc_id,
                  source_doc_title := some (doc.metadata.title.getD ""),
                  source_doc_path := some (doc.metadata.file_path.getD ""),
                  idea_title := some t,
                  links := links,
                  is_atomic_idea := true } }

/-- The idea-conversion loop of `extract_atomic_ideas` (lines 351-368):
drafts are appended one by one to the running output, and the
`idea["title"]` / `idea["description"]` subscripts raise `KeyError` on the
first ill-shaped idea — the document-level handler then keeps the drafts
already appended and drops the rest of this document. -/
def ideas_to_documents (doc : Document) : List IdeaDict → List Document
  | [] => []
  | idea :: rest =>
    match idea.title with
    | none => []
    | some t =>
      match idea.description with
      | none => []
      | some descr =>
        idea_to_document doc t descr idea.links :: ideas_to_documents doc rest

/-- Per-document body of `extract_atomic_ideas`: split into sections, extract
ideas per section (each section yields at least the fallback), deduplicate,
and convert the surviving ideas into draft `Document`s. A `KeyError` escaping
`deduplicate_ideas` is caught by the document-level handler, which drops the
whole document (zero drafts); one raised inside the conversion loop keeps
only the prefix converted so far. -/
def extract_doc_ideas (section_oracle : String → String → Option (List IdeaDict))
    (dedup_oracle : List String → Option (List IdeaDict))
    (chunk_split : String → List String) (global_summary : String)
    (doc : Document) : List Document :=
  let sections := split_into_sections chunk_split doc.text
  let all_ideas :=
    sections.flatMap (fun sec => extract_section_ideas section_oracle global_summary sec)
  match deduplicate_ideas dedup_oracle all_ideas with
  | .error _ => []
  | .ok deduplicated => ideas_to_documents doc deduplicated

/-- atomic_extractor.py `SimpleLLMAtomicExtractor.extract_atomic_ideas` as
invoked from main.py (no `store` argument, so no already-processed filter):
for each document the global summary is generated (`summary_oracle`; `none`
models a raised exception, which the document-level handler converts into
skipping the document), then the per-document extraction runs. -/
def extract_atomic_ideas (summary_oracle : String → Option String)
    (section_oracle : String → String → Option (List IdeaDict))
    (dedup_oracle : List String → Option (List IdeaDict))
    (chunk_split : String → List String) (documents : List Document) :
    List Document :=
  documents.flatMap (fun doc =>
    match summary_oracle doc.text with
    | none => []
    | some summary =>
      extract_doc_ideas section_oracle dedup_oracle chunk_split summary doc)

/-- One per-note perspective inside a concept analysis (distiller.py prompt
structure). -/
structure Perspective where
  note_num : String
  perspective : String
deriving Repr, DecidableEq

/-- One concept of the structured concept breakdown. -/
structure AnalysisConcept where
  name : String
  description : String
  perspectives : List Perspective
  contradictions : String
deriving Repr, DecidableEq

/-- The structured result of distiller.py `identify_cluster_concepts` (the
parsed JSON analysis). -/
structure ConceptAnalysis where
  cluster_theme : String
  concepts : List AnalysisConcept
deriving Repr, DecidableEq

/-- distiller.py `ConceptDistiller.identify_cluster_concepts`: the LLM call
plus `clean_llm_json_response` is the `analysis_oracle` (deterministic in the
cluster, since the prompt is built from the cluster alone); on any failure the
degenerate analysis with the fixed "Analysis failed" theme and no concepts is
returned instead of raising. -/
def identify_cluster_concepts
    (analysis_oracle : List Document → Except String ConceptAnalysis)
    (cluster : List Document) : ConceptAnalysis :=
  match analysis_oracle cluster with
  | .ok a => a
  | .error _ => ⟨"Analysis failed", []⟩

/-- Deterministic rendering of a concept analysis into the note body
(distiller.py `create_concept_synthesis`, content assembly). -/
def render_synthesis (analysis : ConceptAnalysis) : String :=
  let title := analysis.cluster_theme
  let parts := ["# " ++ title ++ "\n"] ++
    analysis.concepts.flatMap (fun c =>
      ["## " ++ c.name, c.description] ++
      (if c.perspectives.length > 0 then
        ["\n### Different Perspectives"] ++
        c.perspectives.filterMap (fun p =>
          if !(p.note_num == "") && !(p.perspective == "") then
            some ("- **Note " ++ p.note_num ++ "**: " ++ p.perspective)
          else none)
      else []) ++
      (if !(c.contradictions == "") &&
          !([ "none", "n/a", "not applicable" ].contains c.contradictions.toLower) then
        ["\n### Tensions or Contradictions", c.contradictions]
      else []) ++
      ["\n"])
  String.intercalate "\n" parts

/-- A distilled note draft: the rendered document plus the provenance ids of
the cluster it came from (interfaces.py `DistilledNote`). -/
structure DistilledNote where
  doc : Document
  source_ids : List String
deriving Repr, DecidableEq

/-- distiller.py `ConceptDistiller.create_concept_synthesis`: returns `None`
when the analysis carries no concepts (which is exactly the degenerate
"Analysis failed" analysis, among others); otherwise renders the note,
mints a fresh uuid (`fresh`) and records the whole cluster as provenance. -/
def create_concept_synthesis (fresh : String) (cluster : List Document)
    (concept_analysis : ConceptAnalysis) : Option DistilledNote :=
  if concept_analysis.concepts = [] then none
  else
    some ⟨{ doc_id := fresh,
            text := render_synthesis concept_analysis,
            metadata := { title := some concept_analysis.cluster_theme,
                          key_concepts := concept_analysis.concepts.map (fun c => c.name),
                          sibling_notes := [],
                          is_user_edited := false } },
          cluster.map (fun d => d.doc_id)⟩

/-- distiller.py `ConceptDistiller.distill_single_cluster`: clusters below the
configured minimum size are skipped with `None`; otherwise analysis then
synthesis. -/
def distill_single_cluster
    (analysis_oracle : List Document → Except String ConceptAnalysis)
    (fresh : String) (min_cluster_size : Nat) (cluster : List Document) :
    Option DistilledNote :=
  if cluster.length < min_cluster_size then none
  else create_concept_synthesis fresh cluster
    (identify_cluster_concepts analysis_oracle cluster)

/-- Worker of `distill_knowledge` threading the index of the current cluster
so that the i-th cluster uses the fresh uuid `uuids i`. -/
def distill_knowledge_aux
    (analysis_oracle : List Document → Except String ConceptAnalysis)
    (uuids : Nat → String) (min_cluster_size : Nat) :
    Nat → List (List Document) → List DistilledNote
  | _, [] => []
  | i, cl :: rest =>
    match distill_single_cluster analysis_oracle (uuids i) min_cluster_size cl with
    | some note => note :: distill_knowledge_aux analysis_oracle uuids min_cluster_size (i + 1) rest
    | none => distill_knowledge_aux analysis_oracle uuids min_cluster_size (i + 1) rest

/-- distiller.py `ConceptDistiller.distill_knowledge`: distills each cluster
in order and keeps the successful notes; `uuids i` is the fresh uuid used for
the note of the i-th cluster. -/
def distill_knowledge
    (analysis_oracle : List Document → Except String ConceptAnalysis)
    (uuids : Nat → String) (min_cluster_size : Nat)
    (clusters : List (List Document)) : List DistilledNote :=
  distill_knowledge_aux analysis_oracle uuids min_cluster_size 0 clusters

/-- main.py, cluster-approach filter (lines 116-128): keep exactly the
clusters having at least two member note ids not yet covered by
`get_already_distilled_note_ids`. -/
def filter_clusters_to_distill (already_distilled_ids : List String)
    (clusters : List (List Document)) : List (List Document) :=
  clusters.filter (fun cluster =>
    2 ≤ ((cluster.map (fun d => d.doc_id)).filter
          (fun i => !(already_distilled_ids.contains i))).length)

/-- main.py distillation stage (steps 8-10, cluster approach): read the
already-distilled ids, filter the clusters, distill, embed the distilled
documents, reattach them to their notes, build the provenance map keyed by
note id and save through `save_clean_notes`. When nothing was distilled the
save is skipped, which coincides with saving the empty list. -/
def distillation_stage
    (analysis_oracle : List Document → Except String ConceptAnalysis)
    (uuids : Nat → String) (embed_one : String → Except String Vec)
    (clusters : List (List Document)) (s : KnowledgeStore) :
    Except String KnowledgeStore :=
  let already_distilled_ids := get_already_distilled_note_ids s
  let clusters_to_distill := filter_clusters_to_distill already_distilled_ids clusters
  let distilled_notes := distill_knowledge analysis_oracle uuids 2 clusters_to_distill
  let distilled_docs := distilled_notes.map (fun n => n.doc)
  let embedded_docs := embed_documents embed_one distilled_docs
  let notes2 := (distilled_notes.zip embedded_docs).map
    (fun nd => DistilledNote.mk nd.2 nd.1.source_ids)
  let source_id_map := notes2.map (fun n => (n.doc.doc_id, n.source_ids))
  match save_clean_notes uuids (notes2.map (fun n => n.doc)) source_id_map s with
  | .error e => .error e
  | .ok (_, s2) => .ok s2

/-- Events of the extraction loop of main.py (step 5): a batch save of atomic
notes or the processed-flag update of one raw document. -/
inductive PipelineEvent where
  | save_notes (notes : List Document)
  | mark_processed (doc_id : String)
deriving Repr, DecidableEq

/-- Store-effect trace of one chunk iteration of the main.py extraction loop:
extraction, then embedding, then ONE `save_atomic_notes` call, then one
`mark_raw_document_processed` call per document of the chunk, in that source
order. `extract_fn` and `embed_fn` stand for the extractor and embedder
applications of the loop body. -/
def chunk_events (extract_fn : List Document → List Document)
    (embed_fn : List Document → List Document) (chunk : List Document) :
    List PipelineEvent :=
  PipelineEvent.save_notes (embed_fn (extract_fn chunk)) ::
    chunk.map (fun d => PipelineEvent.mark_processed d.doc_id)

/-- Store-effect trace of the whole extraction loop over a chunk list. -/
def chunks_events (extract_fn embed_fn : List Document → List Document)
    (chunks : List (List Document)) : List PipelineEvent :=
  chunks.flatMap (chunk_events extract_fn embed_fn)

/-- main.py step 5: the unprocessed documents are cut into chunks of 20 and
each chunk goes through the extract/embed/save/mark iteration. -/
def extraction_loop_events (extract_fn embed_fn : List Document → List Document)
    (unprocessed_docs : List Document) : List PipelineEvent :=
  chunks_events extract_fn embed_fn (list_chunks 20 unprocessed_docs)

/-- sources.py `ObsidianSource.generate_unique_doc_id`: the content-addressed
id is the SHA-256 hex digest (the external hash capability `sha256_hex`) of
`f"{folder_path}/{file_name}:{text}"`. -/
def generate_unique_doc_id (sha256_hex : String → String)
    (folder_path file_name text : String) : String :=
  sha256_hex (folder_path ++ "/" ++ file_name ++ ":" ++ text)

/-- A store exhibiting the divergence of claim C1: the atomic note `a1` has
provenance `["r"]`, while the raw document `r` is persisted with
`is_processed = false`. -/
def cexStoreC1 : KnowledgeStore :=
  ⟨some [⟨"r", "raw text", "notes/r.md", false, some [1]⟩],
   some [⟨"a1", "an extracted idea", "idea title", ["r"], some [1], []⟩],
   none⟩

/-- The row written by `save_atomic_note` for a note whose embedding key holds
`emb` (storage.py, the `item` dictionary). -/
def saved_atomic_row (fresh : String) (note : Document) (emb : Option Vec) :
    AtomicRow :=
  ⟨if note.doc_id == "" then fresh else note.doc_id, note.text,
   note.metadata.idea_title.getD "", source_doc_ids_of note.metadata,
   emb, note.metadata.links⟩

/-- The store obtained by appending one row to the atomic table (creating the
table when missing). -/
def append_atomic_row (s : KnowledgeStore) (row : AtomicRow) : KnowledgeStore :=
  { s with atomic_notes := some (s.atomicRows ++ [row]) }

/-- A note with a valid, non-empty embedding vector but no source document id
anywhere in its metadata. -/
def cexNoteNoProvenance : Document :=
  ⟨"", "an idea with no provenance", { embedding := some (some [1]) }⟩

/-- A note whose `embedding` metadata key is present but holds `None` (the
shape produced by the embedder for failed items). -/
def cexNoteNullEmbedding : Document :=
  ⟨"", "an idea with a null embedding", { embedding := some none, source_doc_id := some "r" }⟩

/-- A note whose embedding key holds the EMPTY vector (present, not null, but
not a non-empty embedding). -/
def cexNoteEmptyEmbedding : Document :=
  ⟨"", "an idea with an empty embedding", { embedding := some (some []), source_doc_id := some "r" }⟩

/-- A concrete note for the C10 witness: non-empty doc id, embedding present,
non-empty source document id. -/
def noteC10w : Document :=
  ⟨"note-7", "txt", { embedding := some (some [2]), source_doc_id := some "rawX" }⟩

/-- The store produced by saving `noteC10w` into the empty store. -/
def storeC10w : KnowledgeStore :=
  ⟨none, some [⟨"note-7", "txt", "", ["rawX"], some [2], []⟩], none⟩

/-- A concrete raw document for the C4 witness. -/
def docC4w : Document :=
  ⟨"d1", "body text", { embedding := some (some [1]), file_path := some "vault/a.md" }⟩

/-- The store after saving `docC4w` into the empty store. -/
def storeC4w : KnowledgeStore :=
  ⟨some [⟨"d1", "body text", "vault/a.md", false, some [1]⟩], none, none⟩

/-- A concrete embedding oracle for the C5 witness: succeeds on "good",
raises on anything else. -/
def embedOneC5w : String → Except String Vec :=
  fun t => if t == "good" then .ok [1] else .error "boom"

/-- Concrete input batch for the C5 witness: one valid item and one
empty-text item. -/
def docsC5w : List Document := [⟨"g", "good", {}⟩, ⟨"e", "", {}⟩]

/-- The processed form of the empty-text item (retained, null embedding,
error attached). -/
def doutC5w : Document :=
  ⟨"e", "", { embedding := some none, embedding_error := some "Invalid or empty text" }⟩

/-- Concrete oracles and documents for the C3 theorems. -/
def summaryOracleW : String → Option String := fun _ => some "a global summary"

/-- A section oracle that always parses successfully into one well-formed
idea. -/
def sectionOracleOkW : String → String → Option (List IdeaDict) :=
  fun _ _ => some [{ title := some "an idea title",
                     description := some "an idea description", links := [] }]

/-- A section oracle on which parsing always fails (both tiers). -/
def sectionOracleFailW : String → String → Option (List IdeaDict) := fun _ _ => none

/-- A deduplication capability whose parse always fails (fail-open to the
original ideas). -/
def dedupOracleW : List String → Option (List IdeaDict) := fun _ => none

/-- A chunking capability that returns the whole text as one chunk. -/
def chunkSplitW : String → List String := fun s => [s]

/-- A document whose text is exactly two newline characters (a whitespace
paragraph break and nothing else). -/
def docWhitespace : Document := ⟨"raw-1", "\n\n", {}⟩

/-- An analysis oracle on which the concept-analysis response cannot be parsed
(distiller.py raises `ValueError` inside `clean_llm_json_response`). -/
def analysisOracleFailW : List Document → Except String ConceptAnalysis :=
  fun _ => .error "Could not extract valid JSON from the response"

/-- A qualifying cluster of two atomic-note documents. -/
def clusterC8w : List Document := [⟨"a1", "idea one", {}⟩, ⟨"a2", "idea two", {}⟩]

/-- A total labelling capability for the C6 witness: every item gets label 0
(one label per item by construction). -/
def aggLabelsW : List (Option Vec) → List Int := fun e => List.replicate e.length 0

/-- A UMAP+HDBSCAN capability for the C6 witness (never reached on small
inputs). -/
def umapLabelsW : Nat × Nat × Nat × Nat → List (Option Vec) → List Int :=
  fun _ e => List.replicate e.length 1

/-- A concrete two-document embedded input for the C6 witness. -/
def docsC6w : List Document :=
  [⟨"n1", "one", { embedding := some (some [1, 0]) }⟩,
   ⟨"n2", "two", { embedding := some (some [0, 1]) }⟩]

/-- A single embedded document — one sample, on which sklearn raises. -/
def docsC6single : List Document :=
  [⟨"n1", "one", { embedding := some (some [1, 0]) }⟩]

/-- Concrete extractor application for the C9 witness. -/
def extractFnW : List Document → List Document :=
  fun docs => docs.map (fun d =>
    ⟨"", "an idea from " ++ d.doc_id, { source_doc_id := some d.doc_id }⟩)

/-- Concrete embedder application for the C9 witness. -/
def embedFnW : List Document → List Document :=
  embed_documents (fun _ => .ok [1])

/-- An analysis oracle that always parses into one concept (C7 witness). -/
def oracleC7w : List Document → Except String ConceptAnalysis :=
  fun _ => .ok ⟨"Shared Theme", [⟨"core concept", "integrated explanation", [], ""⟩]⟩

/-- An injective fresh-uuid supply (ids of pairwise distinct lengths). -/
def uuidsC7w (i : Nat) : String := String.mk (List.replicate (i + 1) 'u')

/-- A constant embedding capability (C7 witness). -/
def embedOneC7w : String → Except String Vec := fun _ => .ok [1]

/-- One two-note cluster (C7 witness). -/
def clustersC7w : List (List Document) :=
  [[⟨"a1", "idea one", {}⟩, ⟨"a2", "idea two", {}⟩]]

/-- The store produced by the first distillation run of the C7 witness. -/
def storeC7w : KnowledgeStore :=
  ((distillation_stage oracleC7w uuidsC7w embedOneC7w clustersC7w
    emptyStore).toOption).getD emptyStore

/-! The remainder of the file is the verification: helper lemmas first,
then the claim theorems with their counterexamples and witnesses. -/

@[simp] theorem rawRows_set_raw (s : KnowledgeStore) (l : List RawRow) :
    ({ s with raw_documents := some l } : KnowledgeStore).rawRows = l := rfl

@[simp] theorem atomicRows_set_atomic (s : KnowledgeStore) (l : List AtomicRow) :
    ({ s with atomic_notes := some l } : KnowledgeStore).atomicRows = l := rfl

@[simp] theorem cleanRows_set_clean (s : KnowledgeStore) (l : List CleanRow) :
    ({ s with clean_notes := some l } : KnowledgeStore).cleanRows = l := rfl

/-- Claim C1 is FALSE on the code: in `cexStoreC1` a persisted atomic note's
provenance list contains `"r"`, yet `has_processed_document "r"` returns
`false`; and flipping the raw document's processed flag (provenance
untouched) flips the answer to `true`, so the result DOES depend on the
processed flag and not on provenance. -/
theorem claim_C1_counterexample :
    (∃ row ∈ cexStoreC1.atomicRows, "r" ∈ row.source_doc_ids) ∧
    has_processed_document "r" cexStoreC1 = false ∧
    has_processed_document "r" (mark_raw_document_processed "r" cexStoreC1) = true := by
  refine ⟨⟨⟨"a1", "an extracted idea", "idea title", ["r"], some [1], []⟩, ?_, ?_⟩, rfl, rfl⟩
  · simp [cexStoreC1, KnowledgeStore.atomicRows]
  · simp

/-- Claim C1, amended: `has_processed_document raw_id` returns true exactly
when the raw table holds a row with that id whose `is_processed` flag is set;
it never consults the atomic table, so it is invariant under arbitrary changes
to the atomic tier (it is defined via the processed flag, NOT via provenance
membership). -/
theorem claim_C1_amended (raw_doc_id : String) (s : KnowledgeStore) :
    (has_processed_document raw_doc_id s = true ↔
      ∃ row ∈ s.rawRows, row.id = raw_doc_id ∧ row.is_processed = true) ∧
    (∀ t, has_processed_document raw_doc_id { s with atomic_notes := t } =
      has_processed_document raw_doc_id s) := by
  constructor
  · unfold has_processed_document KnowledgeStore.rawRows
    cases s.raw_documents with
    | none => simp
    | some rows => simp [List.any_eq_true]
  · intro t
    rfl

/-- Claim C2 is FALSE on the code: a note with no source document id at all is
saved without any validation error (persisted with EMPTY provenance), and a
note whose embedding key holds the empty vector — so it lacks a non-empty
embedding — is saved as well; `save_atomic_note` only checks presence of the
`embedding` KEY (its one value-sensitive failure, `len(None)` on the
table-creation path, is a `TypeError`, not a validation of non-emptiness). -/
theorem claim_C2_counterexample :
    save_atomic_note "fresh-1" cexNoteNoProvenance emptyStore =
      .ok ("fresh-1", append_atomic_row emptyStore
        ⟨"fresh-1", "an idea with no provenance", "", [], some [1], []⟩) ∧
    save_atomic_note "fresh-2" cexNoteEmptyEmbedding emptyStore =
      .ok ("fresh-2", append_atomic_row emptyStore
        ⟨"fresh-2", "an idea with an empty embedding", "", ["r"], some [], []⟩) := by
  constructor <;> rfl

/-- Claim C2, amended: saving an atomic note fails in exactly two cases — a
`ValueError` when the `embedding` metadata KEY is absent, and a `TypeError`
when the atomic table does not exist yet and the value under the key is null
(the table-creation branch computes its length). In every other case —
including an empty embedding vector, a null value on an existing table, and a
missing source document id — the note is persisted (appended to the atomic
table) and its assigned id is returned: neither non-emptiness of the
embedding nor presence of a source document id is validated. -/
theorem claim_C2_amended (fresh : String) (note : Document) (s : KnowledgeStore) :
    (note.metadata.embedding = none →
      save_atomic_note fresh note s =
        .error "Atomic note must have an embedding before saving to LanceDB") ∧
    (note.metadata.embedding = some none → s.atomic_notes = none →
      save_atomic_note fresh note s =
        .error "object of type NoneType has no len()") ∧
    (∀ emb, note.metadata.embedding = some emb →
      (¬ (s.atomic_notes = none) ∨ ¬ (emb = none)) →
      save_atomic_note fresh note s =
        .ok (if note.doc_id == "" then fresh else note.doc_id,
          append_atomic_row s (saved_atomic_row fresh note emb))) := by
  refine ⟨?_, ?_, ?_⟩
  · intro h
    unfold save_atomic_note
    rw [h]
  · intro h ht
    unfold save_atomic_note
    rw [h, ht]
    rfl
  · intro emb h hcase
    have hg : (s.atomic_notes.isNone && emb.isNone) = false := by
      rcases hcase with hc | hc
      · have h1 : s.atomic_notes.isNone = false := by
          cases hA : s.atomic_notes
          · exact absurd hA hc
          · rfl
        rw [h1, Bool.false_and]
      · have h1 : emb.isNone = false := by
          cases hA : emb
          · exact absurd hA hc
          · rfl
        rw [h1, Bool.and_false]
    unfold save_atomic_note
    rw [h]
    dsimp only
    rw [hg]
    rfl

/-- Witness for `claim_C2_amended` at concrete notes: the success clause at a
provenance-free note with a vector, and the table-creation `TypeError` clause
at a null-valued key over the empty store, each hypothesis discharged. -/
theorem claim_C2_amended_witness :
    save_atomic_note "u1" cexNoteNoProvenance emptyStore =
      .ok ("u1", append_atomic_row emptyStore
        ⟨"u1", "an idea with no provenance", "", [], some [1], []⟩) ∧
    save_atomic_note "u2" cexNoteNullEmbedding emptyStore =
      .error "object of type NoneType has no len()" :=
  ⟨(claim_C2_amended "u1" cexNoteNoProvenance emptyStore).2.2 (some [1]) rfl
      (Or.inr (fun hn => Option.noConfusion hn)),
   (claim_C2_amended "u2" cexNoteNullEmbedding emptyStore).2.1 rfl rfl⟩

/-- Claim C10, confirmed: every row persisted by `save_atomic_note` carries a
provenance list of length at most one — the singleton of the metadata key
`source_doc_id` when that key holds a non-empty string, and the empty list
otherwise; a multi-element provenance list is never written. -/
theorem claim_C10 (fresh : String) (note : Document) (s : KnowledgeStore)
    (id : String) (s2 : KnowledgeStore)
    (h : save_atomic_note fresh note s = .ok (id, s2)) :
    ∃ row, s2.atomicRows = s.atomicRows ++ [row] ∧
      row.source_doc_ids = source_doc_ids_of note.metadata ∧
      row.source_doc_ids.length ≤ 1 ∧
      (∀ m, note.metadata.source_doc_id = some m → ¬ (m = "") →
        row.source_doc_ids = [m]) ∧
      ((note.metadata.source_doc_id = none ∨ note.metadata.source_doc_id = some "") →
        row.source_doc_ids = []) := by
  unfold save_atomic_note at h
  cases hm : note.metadata.embedding with
  | none => rw [hm] at h; exact absurd h (by simp)
  | some emb =>
    rw [hm] at h
    dsimp only at h
    by_cases hg : (s.atomic_notes.isNone && emb.isNone) = true
    case pos => rw [if_pos hg] at h; exact absurd h (by simp)
    rw [if_neg hg] at h
    simp only [Except.ok.injEq, Prod.mk.injEq] at h
    obtain ⟨-, hs2⟩ := h
    subst hs2
    refine ⟨_, rfl, rfl, ?_, ?_, ?_⟩
    · show (source_doc_ids_of note.metadata).length ≤ 1
      unfold source_doc_ids_of
      dsimp only
      split <;> simp
    · intro m hm2 hne
      show source_doc_ids_of note.metadata = [m]
      unfold source_doc_ids_of
      rw [hm2]
      simp [hne]
    · intro hcase
      show source_doc_ids_of note.metadata = []
      unfold source_doc_ids_of
      rcases hcase with h0 | h0 <;> rw [h0] <;> simp

/-- Witness for `claim_C10` at a concrete note and store, with the save
hypothesis discharged by evaluation. -/
theorem claim_C10_witness :
    ∃ row, storeC10w.atomicRows = emptyStore.atomicRows ++ [row] ∧
      row.source_doc_ids = source_doc_ids_of noteC10w.metadata ∧
      row.source_doc_ids.length ≤ 1 ∧
      (∀ m, noteC10w.metadata.source_doc_id = some m → ¬ (m = "") →
        row.source_doc_ids = [m]) ∧
      ((noteC10w.metadata.source_doc_id = none ∨ noteC10w.metadata.source_doc_id = some "") →
        row.source_doc_ids = []) :=
  claim_C10 "unused" noteC10w emptyStore "note-7" storeC10w rfl

/-- Claim C4, confirmed: `save_raw_document` is an idempotent upsert keyed by
the content-addressed id (which is deterministic in (path, text) by
construction of `generate_unique_doc_id`): any successful save returns the
document id; a second save of the same document returns the same id and
leaves the store COMPLETELY unchanged (no insert, and since
`save_raw_document` performs no embedding or extraction at all, nothing is
re-embedded or re-processed); and when the id was absent beforehand, exactly
one record with that id exists afterwards. -/
theorem claim_C4 (document : Document) (s s1 : KnowledgeStore) (id : String)
    (h : save_raw_document document s = .ok (id, s1)) :
    id = document.doc_id ∧
    save_raw_document document s1 = .ok (document.doc_id, s1) ∧
    (s.rawRows.countP (fun r => r.id == document.doc_id) = 0 →
      s1.rawRows.countP (fun r => r.id == document.doc_id) = 1) := by
  unfold save_raw_document at h ⊢
  cases hm : document.metadata.embedding with
  | none =>
    rw [hm] at h
    exact absurd h (by simp)
  | some emb =>
    rw [hm] at h
    dsimp only at h ⊢
    by_cases hg : (s.raw_documents.isNone && emb.isNone) = true
    case pos => rw [if_pos hg] at h; exact absurd h (by simp)
    rw [if_neg hg] at h
    by_cases hany : s.rawRows.any (fun r => r.id == document.doc_id) = true
    · rw [if_pos hany] at h
      simp only [Except.ok.injEq, Prod.mk.injEq] at h
      obtain ⟨hid, hs1⟩ := h
      subst hid
      subst hs1
      refine ⟨rfl, ?_, ?_⟩
      · rw [if_neg (by simp), if_pos ?_]
        · rfl
        · simpa using hany
      · intro hcount
        rw [List.countP_eq_zero] at hcount
        rw [List.any_eq_true] at hany
        obtain ⟨r, hr, hp⟩ := hany
        exact absurd hp (hcount r hr)
    · rw [if_neg hany] at h
      simp only [Except.ok.injEq, Prod.mk.injEq] at h
      obtain ⟨hid, hs1⟩ := h
      subst hid
      subst hs1
      refine ⟨rfl, ?_, ?_⟩
      · rw [if_neg (by simp), if_pos ?_]
        · rfl
        · simp only [rawRows_set_raw, List.any_append]
          simp
      · intro hcount
        simp only [rawRows_set_raw, List.countP_append]
        rw [hcount]
        simp

/-- Witness for `claim_C4`: the first save of `docC4w` into the empty store
succeeds by evaluation, and the theorem yields idempotence of the second
save and the exactly-one-record count. -/
theorem claim_C4_witness :
    "d1" = docC4w.doc_id ∧
    save_raw_document docC4w storeC4w = .ok (docC4w.doc_id, storeC4w) ∧
    (emptyStore.rawRows.countP (fun r => r.id == docC4w.doc_id) = 0 →
      storeC4w.rawRows.countP (fun r => r.id == docC4w.doc_id) = 1) :=
  claim_C4 docC4w emptyStore storeC4w "d1" rfl

/-- Per-document behavior of the embedder: identity and text are untouched,
and the result either carries an embedding vector or is marked failed with a
null embedding plus an error description. -/
theorem embed_document_spec (embed_one : String → Except String Vec)
    (doc : Document) :
    (embed_document embed_one doc).doc_id = doc.doc_id ∧
    (embed_document embed_one doc).text = doc.text ∧
    ((∃ v, (embed_document embed_one doc).metadata.embedding = some (some v)) ∨
     ((embed_document embed_one doc).metadata.embedding = some none ∧
      ∃ msg, (embed_document embed_one doc).metadata.embedding_error = some msg)) := by
  unfold embed_document mark_embed_failed set_embedding
  split
  · exact ⟨rfl, rfl, Or.inr ⟨rfl, _, rfl⟩⟩
  · split
    · split
      · exact ⟨rfl, rfl, Or.inl ⟨_, rfl⟩⟩
      · exact ⟨rfl, rfl, Or.inr ⟨rfl, _, rfl⟩⟩
    · split
      · exact ⟨rfl, rfl, Or.inl ⟨_, rfl⟩⟩
      · exact ⟨rfl, rfl, Or.inr ⟨rfl, _, rfl⟩⟩

/-- Claim C5, confirmed: `embed_documents` returns a list of the same length
and order as the input (position i of the output is the processed position i
of the input, with doc id and text unchanged); every failed item is retained
with a null embedding and an attached error description rather than dropped,
and every successful item carries an embedding vector. -/
theorem claim_C5 (embed_one : String → Except String Vec)
    (documents : List Document) :
    (embed_documents embed_one documents).length = documents.length ∧
    ∀ (i : Nat) (din dout : Document), documents[i]? = some din →
      (embed_documents embed_one documents)[i]? = some dout →
      dout.doc_id = din.doc_id ∧ dout.text = din.text ∧
      ((∃ v, dout.metadata.embedding = some (some v)) ∨
       (dout.metadata.embedding = some none ∧
        ∃ msg, dout.metadata.embedding_error = some msg)) := by
  refine ⟨List.length_map _ _, ?_⟩
  intro i din dout hdin hdout
  rw [embed_documents, List.getElem?_map, hdin, Option.map_some'] at hdout
  have hd : dout = embed_document embed_one din := by
    injection hdout with h
    exact h.symm
  subst hd
  exact embed_document_spec embed_one din

/-- Witness for `claim_C5` at position 1 of a concrete batch (the empty-text
item), with both indexing hypotheses discharged by evaluation. -/
theorem claim_C5_witness :
    doutC5w.doc_id = (⟨"e", "", {}⟩ : Document).doc_id ∧
    doutC5w.text = (⟨"e", "", {}⟩ : Document).text ∧
    ((∃ v, doutC5w.metadata.embedding = some (some v)) ∨
     (doutC5w.metadata.embedding = some none ∧
      ∃ msg, doutC5w.metadata.embedding_error = some msg)) :=
  (claim_C5 embedOneC5w docsC5w).2 1 ⟨"e", "", {}⟩ doutC5w rfl rfl

/-- Every per-section extraction yields at least one idea, and — when the
parse oracle only ever delivers well-formed ideas — only well-formed ones
(the fallback is itself well-formed). -/
theorem extract_section_ideas_wf
    (o : String → String → Option (List IdeaDict)) (g sec : String)
    (hwf : ∀ l, o g sec = some l → ∀ i ∈ l, i.wellformed) :
    1 ≤ (extract_section_ideas o g sec).length ∧
    ∀ i ∈ extract_section_ideas o g sec, i.wellformed := by
  unfold extract_section_ideas
  cases ho : o g sec with
  | none =>
    refine ⟨by simp [create_fallback_idea], ?_⟩
    intro i hi
    simp only [create_fallback_idea, List.mem_singleton] at hi
    subst hi
    exact ⟨fun h => Option.noConfusion h, fun h => Option.noConfusion h⟩
  | some ideas =>
    dsimp only
    by_cases hlen : ideas.length > 0
    · rw [if_pos hlen]
      exact ⟨hlen, hwf ideas ho⟩
    · rw [if_neg hlen]
      refine ⟨by simp [create_fallback_idea], ?_⟩
      intro i hi
      simp only [create_fallback_idea, List.mem_singleton] at hi
      subst hi
      exact ⟨fun h => Option.noConfusion h, fun h => Option.noConfusion h⟩

/-- Building the IDEA context lines succeeds exactly on well-formed idea
lists (no `KeyError`). -/
theorem ideas_context_lines_ok (l : List IdeaDict)
    (hwf : ∀ i ∈ l, i.wellformed) :
    ∀ n, ∃ ctx, ideas_context_lines n l = .ok ctx := by
  induction l with
  | nil => intro n; exact ⟨[], rfl⟩
  | cons idea rest ih =>
    intro n
    obtain ⟨ht, hd⟩ := hwf idea (List.mem_cons_self _ _)
    obtain ⟨t, htv⟩ := Option.ne_none_iff_exists'.mp ht
    obtain ⟨descr, hdv⟩ := Option.ne_none_iff_exists'.mp hd
    obtain ⟨ctx, hctx⟩ := ih (fun i hi => hwf i (List.mem_cons_of_mem _ hi)) (n + 1)
    refine ⟨("IDEA " ++ toString (n + 1) ++ ": " ++ t ++ " - " ++ descr) :: ctx, ?_⟩
    unfold ideas_context_lines
    rw [htv, hdv, hctx]

/-- Fail-open deduplication on a non-empty well-formed input with a
capability delivering only well-formed ideas: no `KeyError` is raised and the
result is non-empty and well-formed. -/
theorem deduplicate_ideas_wf (dedup_oracle : List String → Option (List IdeaDict))
    (all_ideas : List IdeaDict) (hne : ¬ (all_ideas = []))
    (hwf : ∀ i ∈ all_ideas, i.wellformed)
    (hora : ∀ ctx r, dedup_oracle ctx = some r → ∀ i ∈ r, i.wellformed) :
    ∃ out, deduplicate_ideas dedup_oracle all_ideas = .ok out ∧
      ¬ (out = []) ∧ ∀ i ∈ out, i.wellformed := by
  unfold deduplicate_ideas
  rw [if_neg hne]
  obtain ⟨ctx, hctx⟩ := ideas_context_lines_ok all_ideas hwf 0
  rw [hctx]
  dsimp only
  cases hor : dedup_oracle ctx with
  | none => exact ⟨all_ideas, rfl, hne, hwf⟩
  | some r =>
    dsimp only
    by_cases hr : r = []
    · rw [if_pos hr]
      exact ⟨all_ideas, rfl, hne, hwf⟩
    · rw [if_neg hr]
      exact ⟨r, rfl, hr, hora ctx r hor⟩

/-- The conversion loop turns every idea of a well-formed list into exactly
one draft (no `KeyError`, nothing dropped). -/
theorem ideas_to_documents_length (doc : Document) (l : List IdeaDict)
    (hwf : ∀ i ∈ l, i.wellformed) :
    (ideas_to_documents doc l).length = l.length := by
  induction l with
  | nil => rfl
  | cons idea rest ih =>
    obtain ⟨ht, hd⟩ := hwf idea (List.mem_cons_self _ _)
    obtain ⟨t, htv⟩ := Option.ne_none_iff_exists'.mp ht
    obtain ⟨descr, hdv⟩ := Option.ne_none_iff_exists'.mp hd
    unfold ideas_to_documents
    rw [htv, hdv]
    dsimp only
    rw [List.length_cons, List.length_cons,
      ih (fun i hi => hwf i (List.mem_cons_of_mem _ hi))]

/-- Claim C3 is FALSE on the code: for the input document whose text is
`"\n\n"`, the paragraph marker `\n{2,}` splits the text into two empty pieces
which are then stripped and filtered away, so `split_into_sections` returns
zero sections and the whole extraction returns ZERO drafts for the document —
even though every oracle here succeeds (no parse failure is involved and the
fallback is never reached). -/
theorem claim_C3_counterexample :
    extract_atomic_ideas summaryOracleW sectionOracleOkW dedupOracleW
      chunkSplitW [docWhitespace] = [] := rfl

/-- Claim C3, amended: for every document whose global-summary step does not
raise, whose text splits into AT LEAST ONE section, and whose parse
capabilities deliver only well-formed ideas (both `title` and `description`
keys present — parse FAILURE is fine and falls back, but a parsed list of
ill-shaped objects raises `KeyError` later and can zero the whole document),
extraction returns at least one draft (never zero); and whenever structured
parsing fails for a section, the extractor emits for it exactly one
degenerate draft whose title is the fixed placeholder "Section content" and
whose description is the section text truncated to its first 100 characters.
Documents with zero sections (for example whitespace-paragraph-only text)
yield zero drafts. -/
theorem claim_C3_amended (summary_oracle : String → Option String)
    (section_oracle : String → String → Option (List IdeaDict))
    (dedup_oracle : List String → Option (List IdeaDict))
    (chunk_split : String → List String) (doc : Document) (summary : String)
    (hsum : summary_oracle doc.text = some summary)
    (hsec : ¬ (split_into_sections chunk_split doc.text = []))
    (hwfsec : ∀ g sec l, section_oracle g sec = some l → ∀ i ∈ l, i.wellformed)
    (hwfdedup : ∀ ctx r, dedup_oracle ctx = some r → ∀ i ∈ r, i.wellformed) :
    1 ≤ (extract_atomic_ideas summary_oracle section_oracle dedup_oracle
      chunk_split [doc]).length ∧
    (∀ g sec, section_oracle g sec = none →
      extract_section_ideas section_oracle g sec =
        [{ title := some "Section content",
           description := some (if sec.length > 100 then
             String.mk (sec.toList.take 100) ++ "..." else sec),
           links := [] }]) := by
  constructor
  · unfold extract_atomic_ideas
    simp only [List.flatMap_cons, List.flatMap_nil, List.append_nil]
    rw [hsum]
    unfold extract_doc_ideas
    dsimp only
    have hne : ¬ ((split_into_sections chunk_split doc.text).flatMap
        (fun sec => extract_section_ideas section_oracle summary sec) = []) := by
      cases hs : split_into_sections chunk_split doc.text with
      | nil => exact absurd hs hsec
      | cons s0 rest =>
        have h1 := (extract_section_ideas_wf section_oracle summary s0
          (hwfsec summary s0)).1
        intro hnil
        rw [List.flatMap_cons] at hnil
        have := congrArg List.length hnil
        rw [List.length_append] at this
        simp only [List.length_nil] at this
        omega
    have hwfall : ∀ i ∈ (split_into_sections chunk_split doc.text).flatMap
        (fun sec => extract_section_ideas section_oracle summary sec),
        i.wellformed := by
      intro i hi
      rw [List.mem_flatMap] at hi
      obtain ⟨sec, -, hi2⟩ := hi
      exact (extract_section_ideas_wf section_oracle summary sec
        (hwfsec summary sec)).2 i hi2
    obtain ⟨out, hout, houtne, houtwf⟩ :=
      deduplicate_ideas_wf dedup_oracle _ hne hwfall hwfdedup
    rw [hout]
    dsimp only
    rw [ideas_to_documents_length doc out houtwf]
    exact List.length_pos.mpr houtne
  · intro g sec hfail
    unfold extract_section_ideas
    rw [hfail]
    rfl

/-- Witness for `claim_C3_amended`: a concrete document with text "hello"
(one section) on which every parse fails; extraction still returns one
(fallback) draft, and the well-formedness hypotheses hold vacuously. -/
theorem claim_C3_amended_witness :
    1 ≤ (extract_atomic_ideas summaryOracleW sectionOracleFailW dedupOracleW
      chunkSplitW [⟨"raw-2", "hello", {}⟩]).length :=
  (claim_C3_amended summaryOracleW sectionOracleFailW dedupOracleW chunkSplitW
    ⟨"raw-2", "hello", {}⟩ "a global summary" rfl (by decide)
    (fun g sec l h => Option.noConfusion h)
    (fun ctx r h => Option.noConfusion h)).1

/-- Claim C8 is FALSE on the code: for a qualifying cluster whose concept
analysis fails, `identify_cluster_concepts` builds the internal degenerate
analysis with the "Analysis failed" theme and ZERO concepts — and
`create_concept_synthesis` then returns `None` on the empty concept list, so
`distill_single_cluster` returns `None`: no draft at all is returned, marked
or otherwise (it does not raise, but it also does not return a draft). -/
theorem claim_C8_counterexample :
    identify_cluster_concepts analysisOracleFailW clusterC8w =
      ⟨"Analysis failed", []⟩ ∧
    distill_single_cluster analysisOracleFailW "u1" 2 clusterC8w = none :=
  ⟨rfl, rfl⟩

/-- Claim C8, amended: for every qualifying cluster (size at least the
configured minimum, 2), if the concept-analysis step fails then the analysis
step yields the internal degenerate analysis carrying the explicit "Analysis
failed" marker and no concepts, and `distill_single_cluster` returns `None`
(a normal skip, not an exception) rather than a degenerate draft. -/
theorem claim_C8_amended
    (analysis_oracle : List Document → Except String ConceptAnalysis)
    (fresh : String) (cluster : List Document) (msg : String)
    (hfail : analysis_oracle cluster = .error msg)
    (hsize : 2 ≤ cluster.length) :
    identify_cluster_concepts analysis_oracle cluster = ⟨"Analysis failed", []⟩ ∧
    distill_single_cluster analysis_oracle fresh 2 cluster = none := by
  have hid : identify_cluster_concepts analysis_oracle cluster =
      ⟨"Analysis failed", []⟩ := by
    unfold identify_cluster_concepts
    rw [hfail]
  refine ⟨hid, ?_⟩
  unfold distill_single_cluster
  rw [if_neg (by omega), hid]
  rfl

/-- Witness for `claim_C8_amended` at a concrete failing oracle and a concrete
two-element cluster. -/
theorem claim_C8_amended_witness :
    identify_cluster_concepts analysisOracleFailW clusterC8w =
      ⟨"Analysis failed", []⟩ ∧
    distill_single_cluster analysisOracleFailW "u2" 2 clusterC8w = none :=
  claim_C8_amended analysisOracleFailW "u2" clusterC8w
    "Could not extract valid JSON from the response" rfl (by decide)

/-- Membership in the first-occurrence deduplication: exactly the labels of
the input that are not in the already-seen accumulator. -/
theorem mem_dedup_keys_aux (l : List Int) :
    ∀ (seen : List Int) (a : Int),
      a ∈ dedup_keys_aux seen l ↔ (a ∈ l ∧ a ∉ seen) := by
  induction l with
  | nil =>
    intro seen a
    simp [dedup_keys_aux]
  | cons k ks ih =>
    intro seen a
    unfold dedup_keys_aux
    by_cases hk : seen.contains k = true
    · rw [if_pos hk, ih]
      simp only [List.contains_iff_exists_mem_beq, beq_iff_eq] at hk
      obtain ⟨k2, hk2, rfl⟩ := hk
      constructor
      · rintro ⟨ha, hna⟩
        exact ⟨List.mem_cons_of_mem _ ha, hna⟩
      · rintro ⟨ha, hna⟩
        rcases List.mem_cons.mp ha with rfl | ha2
        · exact absurd hk2 hna
        · exact ⟨ha2, hna⟩
    · rw [if_neg hk]
      have hknot : k ∉ seen := by
        intro hmem
        exact hk (by simpa using hmem)
      simp only [List.mem_cons, ih (k :: seen) a]
      constructor
      · rintro (rfl | ⟨ha, hna⟩)
        · exact ⟨Or.inl rfl, hknot⟩
        · exact ⟨Or.inr ha, fun h => hna (Or.inr h)⟩
      · rintro ⟨rfl | ha, hna⟩
        · exact Or.inl rfl
        · by_cases hak : a = k
          · exact Or.inl hak
          · exact Or.inr ⟨ha, fun h => h.elim hak hna⟩

/-- The deduplicated label list has no duplicates. -/
theorem nodup_dedup_keys_aux (l : List Int) :
    ∀ seen : List Int, (dedup_keys_aux seen l).Nodup := by
  induction l with
  | nil =>
    intro seen
    simp [dedup_keys_aux]
  | cons k ks ih =>
    intro seen
    unfold dedup_keys_aux
    split
    · exact ih seen
    · rw [List.nodup_cons]
      refine ⟨?_, ih (k :: seen)⟩
      rw [mem_dedup_keys_aux]
      rintro ⟨-, hna⟩
      exact hna (List.mem_cons_self k seen)

/-- Grouping pairs by a duplicate-free list of keys covering all first
components is a permutation of the pairs: the core partition fact behind the
clusterer grouping loop. -/
theorem flatMap_filter_perm :
    ∀ (keys : List Int) (pairs : List (Int × Document)), keys.Nodup →
      (∀ p ∈ pairs, p.1 ∈ keys) →
      (keys.flatMap (fun k => pairs.filter (fun p => p.1 == k))).Perm pairs := by
  intro keys
  induction keys with
  | nil =>
    intro pairs _ hmem
    cases pairs with
    | nil => simp
    | cons p ps => exact absurd (hmem p (List.mem_cons_self _ _)) (List.not_mem_nil _)
  | cons k ks ih =>
    intro pairs hnd hmem
    obtain ⟨hk_not, hks_nd⟩ := List.nodup_cons.mp hnd
    rw [List.flatMap_cons]
    have hrw : ks.flatMap (fun k2 => pairs.filter (fun p => p.1 == k2)) =
        ks.flatMap (fun k2 =>
          (pairs.filter (fun p => !(p.1 == k))).filter (fun p => p.1 == k2)) := by
      rw [List.flatMap_def, List.flatMap_def]
      congr 1
      apply List.map_congr_left
      intro k2 hk2
      rw [List.filter_filter]
      apply List.filter_congr
      intro p _
      by_cases h2 : p.1 = k2
      · have hne2 : ¬ (k2 = k) := by
          intro hkk
          exact hk_not (hkk ▸ hk2)
        simp [h2, hne2]
      · simp [h2]
    rw [hrw]
    have hmem2 : ∀ p ∈ pairs.filter (fun p => !(p.1 == k)), p.1 ∈ ks := by
      intro p hp
      rw [List.mem_filter] at hp
      rcases List.mem_cons.mp (hmem p hp.1) with h | h
      · exfalso
        have := hp.2
        simp [h] at this
      · exact h
    exact (List.Perm.append_left _ (ih _ hks_nd hmem2)).trans
      (List.filter_append_perm _ _)

/-- The grouping phase of the clusterer partitions its input: the
concatenation of the output groups is a permutation of the input documents
(every input item lands in exactly one group, noise labels included). -/
theorem group_by_label_flatten_perm (documents : List Document)
    (labels : List Int) (hlen : labels.length = documents.length) :
    (group_by_label documents labels).flatten.Perm documents := by
  unfold group_by_label
  dsimp only
  rw [← List.flatMap_def]
  have hkeys_nd : ((dedup_keys ((labels.zip documents).map (fun p => p.1))).mergeSort
      (fun a b => decide (a ≤ b))).Nodup :=
    (List.mergeSort_perm _ _).symm.nodup (nodup_dedup_keys_aux _ [])
  have hkeys_mem : ∀ p ∈ labels.zip documents,
      p.1 ∈ (dedup_keys ((labels.zip documents).map (fun p => p.1))).mergeSort
        (fun a b => decide (a ≤ b)) := by
    intro p hp
    rw [(List.mergeSort_perm _ _).mem_iff]
    rw [dedup_keys, mem_dedup_keys_aux]
    exact ⟨List.mem_map_of_mem _ hp, List.not_mem_nil _⟩
  have hperm := flatMap_filter_perm _ (labels.zip documents) hkeys_nd hkeys_mem
  have hmapped := hperm.map (fun p : Int × Document => p.2)
  rw [← List.map_flatMap]
  refine hmapped.trans ?_
  rw [show (fun p : Int × Document => p.2) = Prod.snd from rfl]
  rw [List.map_snd_zip]
  omega

/-- Success of embedding extraction when every document carries the embedding
key: one value per document, in order, and every extracted value is the value
under the key of some input document. -/
theorem extract_embeddings_ok (documents : List Document)
    (hemb : ∀ d ∈ documents, ¬ (d.metadata.embedding = none)) :
    ∃ embs, extract_embeddings documents = .ok embs ∧
      embs.length = documents.length ∧
      ∀ e ∈ embs, ∃ d ∈ documents, d.metadata.embedding = some e := by
  induction documents with
  | nil => exact ⟨[], rfl, rfl, fun e he => absurd he (List.not_mem_nil e)⟩
  | cons d ds ih =>
    obtain ⟨embs, hok, hlen, hfrom⟩ := ih (fun x hx => hemb x (List.mem_cons_of_mem _ hx))
    have hd := hemb d (List.mem_cons_self _ _)
    cases hv : d.metadata.embedding with
    | none => exact absurd hv hd
    | some v =>
      refine ⟨v :: embs, ?_, by simp [hlen], ?_⟩
      · unfold extract_embeddings at hok ⊢
        rw [List.mapM_cons]
        simp only [hv, hok]
        rfl
      · intro e he
        rcases List.mem_cons.mp he with rfl | he2
        · exact ⟨d, List.mem_cons_self _ _, hv⟩
        · obtain ⟨d2, hd2, hv2⟩ := hfrom e he2
          exact ⟨d2, List.mem_cons_of_mem _ hd2, hv2⟩

/-- Claim C6 is FALSE on the code for a single document: the input is
non-empty, every embedding key is present and holds a valid vector, yet
`cluster_documents` takes the small-dataset branch and sklearn raises
`ValueError` on the one-sample array (a pairwise estimator requires at least
2 samples), so no cluster list is returned at all. -/
theorem claim_C6_counterexample :
    cluster_documents aggLabelsW umapLabelsW {} docsC6single =
      .error "Found array with less than 2 samples while a minimum of 2 is required" :=
  rfl

/-- Claim C6, amended: for every input of 2 to 5 documents all carrying an
embedding key holding a NON-NULL vector, with all vectors of equal dimension,
and for any agglomerative labelling capability producing one label per item,
`cluster_documents` succeeds (sklearn validation passes), uses the
distance-threshold branch on the raw vectors — its result does not depend on
the UMAP+HDBSCAN capability at all — and returns a partition of the input:
the concatenation of the groups is a permutation of the input list, a noise
label forming a group like any other. A SINGLE document, however, raises
inside sklearn (see `claim_C6_counterexample`), as do null or ragged
embedding values. -/
theorem claim_C6_amended (agg_labels : List (Option Vec) → List Int)
    (umap_hdbscan_labels : Nat × Nat × Nat × Nat → List (Option Vec) → List Int)
    (c : ClustererConfig) (documents : List Document)
    (h2 : 2 ≤ documents.length)
    (hsmall : documents.length ≤ 5)
    (hvec : ∀ d ∈ documents, ∃ v, d.metadata.embedding = some (some v))
    (hdim : ∀ d1 ∈ documents, ∀ d2 ∈ documents,
      ((d1.metadata.embedding.getD none).getD []).length =
      ((d2.metadata.embedding.getD none).getD []).length)
    (hagg : ∀ e, (agg_labels e).length = e.length) :
    ∃ groups,
      cluster_documents agg_labels umap_hdbscan_labels c documents = .ok groups ∧
      groups.flatten.Perm documents ∧
      (∀ umap2, cluster_documents agg_labels umap2 c documents = .ok groups) := by
  have hne : ¬ (documents = []) := by
    intro habs
    rw [habs] at h2
    simp at h2
  have hemb : ∀ d ∈ documents, ¬ (d.metadata.embedding = none) := by
    intro d hd habs
    obtain ⟨v, hv⟩ := hvec d hd
    rw [habs] at hv
    cases hv
  obtain ⟨embs, hok, hlen, hfrom⟩ := extract_embeddings_ok documents hemb
  have hg1 : ¬ (embs.length < 2) := by omega
  have hg2 : embs.any (fun e => e.isNone) = false := by
    rw [List.any_eq_false]
    intro e he
    obtain ⟨d, hd, hde⟩ := hfrom e he
    obtain ⟨v, hv⟩ := hvec d hd
    rw [hde] at hv
    obtain rfl : e = some v := Option.some.inj hv
    simp
  have hg3 : embs.all (fun e1 => embs.all (fun e2 =>
      (e1.getD []).length == (e2.getD []).length)) = true := by
    rw [List.all_eq_true]
    intro e1 h1
    rw [List.all_eq_true]
    intro e2 hh2
    obtain ⟨d1, hd1, he1⟩ := hfrom e1 h1
    obtain ⟨d2, hd2, he2⟩ := hfrom e2 hh2
    have hdd := hdim d1 hd1 d2 hd2
    rw [he1, he2] at hdd
    simp only [Option.getD_some] at hdd
    simpa using hdd
  have hfit : agglomerative_fit_predict agg_labels embs = .ok (agg_labels embs) := by
    unfold agglomerative_fit_predict
    rw [if_neg hg1, if_neg (by simp [hg2]), if_neg (by simp [hg3])]
  refine ⟨group_by_label documents (agg_labels embs), ?_, ?_, ?_⟩
  · unfold cluster_documents
    rw [if_neg hne, hok]
    dsimp only
    rw [if_pos hsmall, hfit]
  · exact group_by_label_flatten_perm _ _ (by rw [hagg, hlen])
  · intro umap2
    unfold cluster_documents
    rw [if_neg hne, hok]
    dsimp only
    rw [if_pos hsmall, hfit]

/-- Witness for `claim_C6_amended` at a concrete two-document input, with all
five hypotheses discharged. -/
theorem claim_C6_witness :
    ∃ groups,
      cluster_documents aggLabelsW umapLabelsW {} docsC6w = .ok groups ∧
      groups.flatten.Perm docsC6w ∧
      (∀ umap2, cluster_documents aggLabelsW umap2 {} docsC6w = .ok groups) :=
  claim_C6_amended aggLabelsW umapLabelsW {} docsC6w (by decide) (by decide)
    (by
      intro d hd
      simp only [docsC6w, List.mem_cons, List.not_mem_nil, or_false] at hd
      rcases hd with rfl | rfl
      · exact ⟨[1, 0], rfl⟩
      · exact ⟨[0, 1], rfl⟩)
    (by decide) (fun e => by simp [aggLabelsW])

/-- The number of events one chunk iteration emits: one save plus one mark per
chunk document. -/
theorem chunk_events_length (extract_fn embed_fn : List Document → List Document)
    (c : List Document) :
    (chunk_events extract_fn embed_fn c).length = c.length + 1 := by
  simp [chunk_events]

/-- Ordering invariant of the extraction loop trace: every mark-processed
event is strictly preceded by the save event of the chunk the marked document
belongs to. -/
theorem chunks_events_spec (extract_fn embed_fn : List Document → List Document) :
    ∀ (chunks : List (List Document)) (j : Nat) (d : String),
      (chunks_events extract_fn embed_fn chunks)[j]? =
        some (PipelineEvent.mark_processed d) →
      ∃ i chunk, i < j ∧ chunk ∈ chunks ∧ d ∈ chunk.map (fun x => x.doc_id) ∧
        (chunks_events extract_fn embed_fn chunks)[i]? =
          some (PipelineEvent.save_notes (embed_fn (extract_fn chunk))) := by
  intro chunks
  induction chunks with
  | nil =>
    intro j d h
    simp [chunks_events] at h
  | cons c cs ih =>
    intro j d h
    unfold chunks_events at h
    rw [List.flatMap_cons, List.getElem?_append] at h
    by_cases hj : j < (chunk_events extract_fn embed_fn c).length
    · rw [if_pos hj] at h
      unfold chunk_events at h
      rw [List.getElem?_cons] at h
      by_cases hj0 : j = 0
      · rw [if_pos hj0] at h
        exact absurd (Option.some.inj h) (by simp)
      · rw [if_neg hj0] at h
        rw [List.getElem?_map] at h
        have hd : d ∈ c.map (fun x => x.doc_id) := by
          obtain ⟨x, hx1, hx2⟩ := Option.map_eq_some'.mp h
          have hx3 : x.doc_id = d := by
            injection hx2 with h2
          rw [← hx3]
          exact List.mem_map_of_mem _ (List.getElem?_mem hx1)
        refine ⟨0, c, by omega, List.mem_cons_self _ _, hd, ?_⟩
        unfold chunks_events
        rw [List.flatMap_cons, List.getElem?_append,
          if_pos (by rw [chunk_events_length]; omega)]
        unfold chunk_events
        simp
    · rw [if_neg hj] at h
      obtain ⟨i, chunk, hij, hmem, hd, hsave⟩ :=
        ih (j - (chunk_events extract_fn embed_fn c).length) d h
      refine ⟨i + (chunk_events extract_fn embed_fn c).length, chunk, by omega,
        List.mem_cons_of_mem _ hmem, hd, ?_⟩
      unfold chunks_events
      rw [List.flatMap_cons, List.getElem?_append, if_neg (by omega)]
      have heq : i + (chunk_events extract_fn embed_fn c).length -
          (chunk_events extract_fn embed_fn c).length = i := by omega
      rw [heq]
      exact hsave

/-- Claim C9, confirmed: in the store-effect trace of the main.py extraction
loop, for each chunk of unprocessed documents the single `save_atomic_notes`
event precedes (strictly) every `mark_raw_document_processed` event of that
chunk: whenever position j of the trace marks a document d processed, some
earlier position i saves the embedded atomic notes extracted from the very
chunk containing d. The reverse order never occurs in any execution of the
loop body. -/
theorem claim_C9 (extract_fn embed_fn : List Document → List Document)
    (unprocessed_docs : List Document) (j : Nat) (d : String)
    (h : (extraction_loop_events extract_fn embed_fn unprocessed_docs)[j]? =
      some (PipelineEvent.mark_processed d)) :
    ∃ i chunk, i < j ∧ chunk ∈ list_chunks 20 unprocessed_docs ∧
      d ∈ chunk.map (fun x => x.doc_id) ∧
      (extraction_loop_events extract_fn embed_fn unprocessed_docs)[i]? =
        some (PipelineEvent.save_notes (embed_fn (extract_fn chunk))) :=
  chunks_events_spec extract_fn embed_fn (list_chunks 20 unprocessed_docs) j d h

/-- Witness for `claim_C9`: a one-document run; position 1 of the trace marks
"d1" processed and position 0 saves the chunk's notes. -/
theorem claim_C9_witness :
    ∃ i chunk, i < 1 ∧ chunk ∈ list_chunks 20 [(⟨"d1", "text one", {}⟩ : Document)] ∧
      "d1" ∈ chunk.map (fun x => x.doc_id) ∧
      (extraction_loop_events extractFnW embedFnW [⟨"d1", "text one", {}⟩])[i]? =
        some (PipelineEvent.save_notes (embedFnW (extractFnW chunk))) :=
  claim_C9 extractFnW embedFnW [⟨"d1", "text one", {}⟩] 1 "d1" rfl

/-- Membership in the cluster filter of the distillation stage implies
membership in the input and a size of at least 2 (at least two new ids exist,
and they are drawn from the member ids). -/
theorem mem_filter_clusters_to_distill (al : List String)
    (clusters : List (List Document)) (cl : List Document)
    (h : cl ∈ filter_clusters_to_distill al clusters) :
    cl ∈ clusters ∧ 2 ≤ cl.length := by
  unfold filter_clusters_to_distill at h
  rw [List.mem_filter] at h
  refine ⟨h.1, ?_⟩
  have h2 : 2 ≤ ((cl.map (fun d => d.doc_id)).filter
      (fun i => !(al.contains i))).length := of_decide_eq_true h.2
  have h3 := List.length_filter_le (fun i => !(al.contains i))
    (cl.map (fun d => d.doc_id))
  rw [List.length_map] at h3
  omega

/-- Successful distillation of a qualifying cluster: when the analysis oracle
parses and yields at least one concept, `distill_single_cluster` returns a
note whose id is the supplied fresh uuid and whose provenance is exactly the
member ids of the cluster. -/
theorem distill_single_cluster_ok
    (analysis_oracle : List Document → Except String ConceptAnalysis)
    (fresh : String) (cl : List Document) (a : ConceptAnalysis)
    (ha : analysis_oracle cl = .ok a) (hc : ¬ (a.concepts = []))
    (hlen : 2 ≤ cl.length) :
    ∃ note, distill_single_cluster analysis_oracle fresh 2 cl = some note ∧
      note.doc.doc_id = fresh ∧
      note.source_ids = cl.map (fun d => d.doc_id) ∧
      note.doc.metadata.embedding = none := by
  unfold distill_single_cluster identify_cluster_concepts create_concept_synthesis
  rw [if_neg (by omega), ha]
  dsimp only
  rw [if_neg hc]
  exact ⟨_, rfl, rfl, rfl, rfl⟩

/-- The embedder always leaves the embedding key present (a vector on success,
an explicit null on failure). -/
theorem embed_document_embedding_ne_none (embed_one : String → Except String Vec)
    (doc : Document) :
    ¬ ((embed_document embed_one doc).metadata.embedding = none) := by
  rcases (embed_document_spec embed_one doc).2.2 with ⟨v, hv⟩ | ⟨hv, -⟩ <;>
    rw [hv] <;> exact fun h => Option.noConfusion h

/-- The embedder never changes a document id. -/
theorem embed_document_doc_id (embed_one : String → Except String Vec)
    (doc : Document) :
    (embed_document embed_one doc).doc_id = doc.doc_id :=
  (embed_document_spec embed_one doc).1

/-- Behavior of the distillation worker when every cluster of the batch
qualifies and analyzes successfully: every produced note draws its id from
the uuid supply at an index at least the base, every cluster of the batch
contributes a note carrying exactly its member ids as provenance, and with an
injective uuid supply the produced note ids are duplicate-free. -/
theorem distill_knowledge_aux_spec
    (analysis_oracle : List Document → Except String ConceptAnalysis)
    (uuids : Nat → String)
    (hinj : ∀ i j, uuids i = uuids j → i = j) :
    ∀ (kept : List (List Document)) (base : Nat),
      (∀ cl ∈ kept, 2 ≤ cl.length ∧
        ∃ a, analysis_oracle cl = .ok a ∧ ¬ (a.concepts = [])) →
      (∀ note ∈ distill_knowledge_aux analysis_oracle uuids 2 base kept,
        ∃ i, base ≤ i ∧ note.doc.doc_id = uuids i) ∧
      (∀ cl ∈ kept, ∃ note ∈ distill_knowledge_aux analysis_oracle uuids 2 base kept,
        note.source_ids = cl.map (fun d => d.doc_id)) ∧
      ((distill_knowledge_aux analysis_oracle uuids 2 base kept).map
        (fun n => n.doc.doc_id)).Nodup := by
  intro kept
  induction kept with
  | nil =>
    intro base _
    refine ⟨?_, ?_, ?_⟩
    · intro note h
      cases h
    · intro cl h
      cases h
    · simp [distill_knowledge_aux]
  | cons cl0 rest ih =>
    intro base hsucc
    obtain ⟨hlen0, a0, ha0, hc0⟩ := hsucc cl0 (List.mem_cons_self _ _)
    obtain ⟨note0, hnote0, hid0, hsrc0, -⟩ :=
      distill_single_cluster_ok analysis_oracle (uuids base) cl0 a0 ha0 hc0 hlen0
    obtain ⟨ih1, ih2, ih3⟩ := ih (base + 1)
      (fun c hc => hsucc c (List.mem_cons_of_mem _ hc))
    unfold distill_knowledge_aux
    rw [hnote0]
    refine ⟨?_, ?_, ?_⟩
    · intro note hn
      rcases List.mem_cons.mp hn with rfl | hn2
      · exact ⟨base, le_refl _, hid0⟩
      · obtain ⟨i, hi1, hi2⟩ := ih1 note hn2
        exact ⟨i, by omega, hi2⟩
    · intro c hc
      rcases List.mem_cons.mp hc with rfl | hc2
      · exact ⟨note0, List.mem_cons_self _ _, hsrc0⟩
      · obtain ⟨note, hn1, hn2⟩ := ih2 c hc2
        exact ⟨note, List.mem_cons_of_mem _ hn1, hn2⟩
    · rw [List.map_cons, List.nodup_cons]
      refine ⟨?_, ih3⟩
      rw [List.mem_map]
      rintro ⟨note, hn1, hn2⟩
      obtain ⟨i, hi1, hi2⟩ := ih1 note hn1
      rw [hi2, hid0] at hn2
      have := hinj i base hn2
      omega

/-- Inversion of a successful `save_clean_note`: the embedding key was
present and exactly one row was appended, carrying the supplied provenance. -/
theorem save_clean_note_ok_inv (fresh : String) (note : Document)
    (atomic_note_ids : List String) (s : KnowledgeStore)
    (id : String) (s1 : KnowledgeStore)
    (h : save_clean_note fresh note atomic_note_ids s = .ok (id, s1)) :
    ∃ emb, note.metadata.embedding = some emb ∧
      id = (if note.doc_id == "" then fresh else note.doc_id) ∧
      s1 = { s with clean_notes := some (s.cleanRows ++
        [⟨if note.doc_id == "" then fresh else note.doc_id, note.text,
          note.metadata.title.getD "", atomic_note_ids,
          note.metadata.is_user_edited, emb, note.metadata.sibling_notes⟩]) } := by
  unfold save_clean_note at h
  cases hv : note.metadata.embedding with
  | none => rw [hv] at h; exact absurd h (by simp)
  | some emb =>
    rw [hv] at h
    dsimp only at h
    by_cases hg : (s.clean_notes.isNone && emb.isNone) = true
    case pos => rw [if_pos hg] at h; exact absurd h (by simp)
    rw [if_neg hg] at h
    simp only [Except.ok.injEq, Prod.mk.injEq] at h
    obtain ⟨hid, hs1⟩ := h
    exact ⟨emb, rfl, hid.symm, hs1.symm⟩

/-- Inversion of a successful `save_clean_notes` batch: the whole batch was
appended to the clean table (created on first insert when missing), each new
row carrying the provenance looked up in the map under the document id. -/
theorem save_clean_notes_ok_spec (m : List (String × List String)) :
    ∀ (docs : List Document) (fresh : Nat → String) (s : KnowledgeStore)
      (ids : List String) (s2 : KnowledgeStore),
      save_clean_notes fresh docs m s = .ok (ids, s2) →
      ∃ newRows : List CleanRow,
        (docs = [] → s2 = s ∧ newRows = []) ∧
        (¬ (docs = []) → s2.clean_notes = some (s.cleanRows ++ newRows)) ∧
        (∀ d ∈ docs, ∃ row, row ∈ newRows ∧
          row.atomic_note_ids = (m.lookup d.doc_id).getD []) := by
  intro docs
  induction docs with
  | nil =>
    intro fresh s ids s2 h
    unfold save_clean_notes at h
    simp only [Except.ok.injEq, Prod.mk.injEq] at h
    obtain ⟨-, hs⟩ := h
    subst hs
    refine ⟨[], fun _ => ⟨rfl, rfl⟩, fun hne => absurd rfl hne, ?_⟩
    intro d hd
    cases hd
  | cons d rest ih =>
    intro fresh s ids s2 h
    unfold save_clean_notes at h
    cases h1 : save_clean_note (fresh 0) d ((m.lookup d.doc_id).getD []) s with
    | error e => rw [h1] at h; exact absurd h (by simp)
    | ok p =>
      obtain ⟨id1, s1⟩ := p
      rw [h1] at h
      dsimp only at h
      cases h2 : save_clean_notes (fun i => fresh (i + 1)) rest m s1 with
      | error e => rw [h2] at h; exact absurd h (by simp)
      | ok q =>
        obtain ⟨ids2, sF⟩ := q
        rw [h2] at h
        simp only [Except.ok.injEq, Prod.mk.injEq] at h
        obtain ⟨-, hsF⟩ := h
        subst hsF
        obtain ⟨emb, hv, hid1, hs1⟩ := save_clean_note_ok_inv (fresh 0) d
          ((m.lookup d.doc_id).getD []) s id1 s1 h1
        obtain ⟨newRest, hnil, hcons, hmem⟩ := ih (fun i => fresh (i + 1)) s1 ids2 _ h2
        refine ⟨⟨if d.doc_id == "" then fresh 0 else d.doc_id, d.text,
          d.metadata.title.getD "", (m.lookup d.doc_id).getD [],
          d.metadata.is_user_edited, emb, d.metadata.sibling_notes⟩ :: newRest, ?_, ?_, ?_⟩
        · intro habs
          exact absurd habs (List.cons_ne_nil _ _)
        · intro _
          by_cases hrnil : rest = []
          · obtain ⟨hsame, hnew⟩ := hnil hrnil
            subst hnew
            rw [hsame, hs1]
          · have hc := hcons hrnil
            rw [hc, hs1]
            simp [List.append_assoc]
        · intro x hx
          rcases List.mem_cons.mp hx with rfl | hx2
          · exact ⟨_, List.mem_cons_self _ _, rfl⟩
          · obtain ⟨row, hr1, hr2⟩ := hmem x hx2
            exact ⟨row, List.mem_cons_of_mem _ hr1, hr2⟩

/-- Zipping a list with its own image under a map pairs each element with its
image. -/
theorem zip_self_map {α β : Type} (l : List α) (g : α → β) :
    l.zip (l.map g) = l.map (fun a => (a, g a)) := by
  induction l with
  | nil => rfl
  | cons x xs ih => simp [ih]

/-- Looking up a note id in the source-id map built from a batch with
duplicate-free ids returns that note's provenance. -/
theorem lookup_source_id_map (notes2 : List DistilledNote) :
    ((notes2.map (fun n => n.doc.doc_id)).Nodup) →
    ∀ n ∈ notes2,
      (notes2.map (fun n => (n.doc.doc_id, n.source_ids))).lookup n.doc.doc_id =
        some n.source_ids := by
  induction notes2 with
  | nil =>
    intro _ n h
    cases h
  | cons n0 rest ih =>
    intro hnd n hn
    rw [List.map_cons] at hnd
    obtain ⟨h0, hrest⟩ := List.nodup_cons.mp hnd
    rcases List.mem_cons.mp hn with rfl | hn2
    · rw [List.map_cons, List.lookup_cons]
      simp
    · have hne : ¬ (n.doc.doc_id = n0.doc.doc_id) := by
        intro he
        apply h0
        rw [← he]
        exact List.mem_map_of_mem _ hn2
      rw [List.map_cons, List.lookup_cons]
      have hbeq : (n.doc.doc_id == n0.doc.doc_id) = false :=
        beq_eq_false_iff_ne.mpr hne
      rw [hbeq]
      exact ih hrest n hn2

/-- Any provenance id of any clean row is reported by
`get_already_distilled_note_ids` (as long as the table fits in the 10000-row
scan cap). -/
theorem mem_get_already (s2 : KnowledgeStore) (rows : List CleanRow)
    (h : s2.clean_notes = some rows) (hcap : rows.length ≤ 10000)
    (row : CleanRow) (hr : row ∈ rows) (x : String)
    (hx : x ∈ row.atomic_note_ids) :
    x ∈ get_already_distilled_note_ids s2 := by
  unfold get_already_distilled_note_ids
  rw [h]
  dsimp only
  rw [List.take_of_length_le hcap]
  exact List.mem_flatMap.mpr ⟨row, hr, hx⟩

/-- Appending rows to the clean table only grows the already-distilled id
set (within the scan cap). -/
theorem already_subset (s s2 : KnowledgeStore) (newRows : List CleanRow)
    (h2 : s2.clean_notes = some (s.cleanRows ++ newRows))
    (hcap : (s.cleanRows ++ newRows).length ≤ 10000) :
    ∀ x ∈ get_already_distilled_note_ids s, x ∈ get_already_distilled_note_ids s2 := by
  intro x hx
  unfold get_already_distilled_note_ids at hx
  cases hsc : s.clean_notes with
  | none =>
    rw [hsc] at hx
    dsimp only at hx
    cases hx
  | some rows =>
    rw [hsc] at hx
    dsimp only at hx
    obtain ⟨row, hr, hxr⟩ := List.mem_flatMap.mp hx
    have hr2 : row ∈ rows := (List.take_sublist _ _).subset hr
    have hrows : s.cleanRows = rows := by
      unfold KnowledgeStore.cleanRows
      rw [hsc]
      rfl
    refine mem_get_already s2 _ h2 hcap row ?_ x hxr
    rw [hrows]
    exact List.mem_append.mpr (Or.inl hr2)

/-- The zip-and-reattach step of the distillation stage is a per-note map:
each note keeps its provenance and gets its document embedded. -/
theorem notes2_eq (embed_one : String → Except String Vec)
    (notes : List DistilledNote) :
    ((notes.zip (embed_documents embed_one (notes.map (fun n => n.doc)))).map
      (fun nd => DistilledNote.mk nd.2 nd.1.source_ids)) =
    notes.map (fun n =>
      DistilledNote.mk (embed_document embed_one n.doc) n.source_ids) := by
  unfold embed_documents
  rw [List.map_map, zip_self_map, List.map_map]
  rfl

/-- When the cluster filter leaves nothing to distill, the distillation stage
is a no-op on the store (nothing is distilled, embedded or saved). -/
theorem distillation_stage_noop
    (oracle2 : List Document → Except String ConceptAnalysis)
    (uuids2 : Nat → String) (embed2 : String → Except String Vec)
    (clusters : List (List Document)) (s0 : KnowledgeStore)
    (h : filter_clusters_to_distill (get_already_distilled_note_ids s0) clusters = []) :
    distillation_stage oracle2 uuids2 embed2 clusters s0 = .ok s0 := by
  unfold distillation_stage
  dsimp only
  rw [h]
  rfl

/-- Claim C7, amended: re-distillation is idempotent PROVIDED the first run
actually distilled everything it filtered in — the analysis oracle parses
with at least one concept on every cluster passing the filter, the fresh-uuid
supply is injective, and the resulting clean table stays within the 10000-row
scan cap of `get_already_distilled_note_ids` — and no new AtomicNotes arrive
in between, so the second run sees the same cluster list. Then every cluster
is filtered out by provenance coverage before distillation (fewer than two
not-yet-distilled member ids remain), and the second run produces ZERO new
DistilledNotes and leaves the store unchanged, regardless of the oracle, uuid
supply and embedder it runs with. Without the first-run success proviso the
unconditional claim is FALSE: see `claim_C7_counterexample`. -/
theorem claim_C7
    (analysis_oracle : List Document → Except String ConceptAnalysis)
    (uuids : Nat → String) (embed_one : String → Except String Vec)
    (clusters : List (List Document)) (s s2 : KnowledgeStore)
    (hinj : ∀ i j, uuids i = uuids j → i = j)
    (hsuccess : ∀ cl ∈ filter_clusters_to_distill
        (get_already_distilled_note_ids s) clusters,
      ∃ a, analysis_oracle cl = .ok a ∧ ¬ (a.concepts = []))
    (hrun1 : distillation_stage analysis_oracle uuids embed_one clusters s = .ok s2)
    (hcap : s2.cleanRows.length ≤ 10000) :
    filter_clusters_to_distill (get_already_distilled_note_ids s2) clusters = [] ∧
    ∀ (oracle2 : List Document → Except String ConceptAnalysis)
      (uuids2 : Nat → String) (embed2 : String → Except String Vec),
      distillation_stage oracle2 uuids2 embed2 clusters s2 = .ok s2 := by
  have hsucc2 : ∀ cl ∈ filter_clusters_to_distill
      (get_already_distilled_note_ids s) clusters,
      2 ≤ cl.length ∧ ∃ a, analysis_oracle cl = .ok a ∧ ¬ (a.concepts = []) :=
    fun cl hcl =>
      ⟨(mem_filter_clusters_to_distill _ clusters cl hcl).2, hsuccess cl hcl⟩
  obtain ⟨hids, hcover, hnodup⟩ := distill_knowledge_aux_spec analysis_oracle
    uuids hinj (filter_clusters_to_distill (get_already_distilled_note_ids s) clusters)
    0 hsucc2
  -- name the distilled notes and their embedded forms
  unfold distillation_stage at hrun1
  dsimp only at hrun1
  rw [notes2_eq] at hrun1
  unfold distill_knowledge at hrun1
  -- nodup of the embedded note ids
  have hids_eq : ((distill_knowledge_aux analysis_oracle uuids 2 0
        (filter_clusters_to_distill (get_already_distilled_note_ids s) clusters)).map
        (fun n => DistilledNote.mk (embed_document embed_one n.doc) n.source_ids)).map
        (fun n => n.doc.doc_id) =
      (distill_knowledge_aux analysis_oracle uuids 2 0
        (filter_clusters_to_distill (get_already_distilled_note_ids s) clusters)).map
        (fun n => n.doc.doc_id) := by
    rw [List.map_map]
    apply List.map_congr_left
    intro n _
    exact embed_document_doc_id embed_one n.doc
  have hnodup2 := hids_eq ▸ hnodup
  -- the first run's batch save succeeded, so it can be inverted
  have hok : ∃ ids sFin, save_clean_notes uuids
      (((distill_knowledge_aux analysis_oracle uuids 2 0
        (filter_clusters_to_distill (get_already_distilled_note_ids s) clusters)).map
        (fun n => DistilledNote.mk (embed_document embed_one n.doc) n.source_ids)).map
        (fun n => n.doc))
      (((distill_knowledge_aux analysis_oracle uuids 2 0
        (filter_clusters_to_distill (get_already_distilled_note_ids s) clusters)).map
        (fun n => DistilledNote.mk (embed_document embed_one n.doc) n.source_ids)).map
        (fun n => (n.doc.doc_id, n.source_ids)))
      s = .ok (ids, sFin) := by
    cases hs0 : save_clean_notes uuids
        (((distill_knowledge_aux analysis_oracle uuids 2 0
          (filter_clusters_to_distill (get_already_distilled_note_ids s) clusters)).map
          (fun n => DistilledNote.mk (embed_document embed_one n.doc) n.source_ids)).map
          (fun n => n.doc))
        (((distill_knowledge_aux analysis_oracle uuids 2 0
          (filter_clusters_to_distill (get_already_distilled_note_ids s) clusters)).map
          (fun n => DistilledNote.mk (embed_document embed_one n.doc) n.source_ids)).map
          (fun n => (n.doc.doc_id, n.source_ids)))
        s with
    | error e => rw [hs0] at hrun1; exact absurd hrun1 (by simp)
    | ok p => exact ⟨p.1, p.2, rfl⟩
  obtain ⟨ids, sFin, hsaveok⟩ := hok
  obtain ⟨newRows, hnil, hcons, hmem⟩ :=
    save_clean_notes_ok_spec
      (((distill_knowledge_aux analysis_oracle uuids 2 0
        (filter_clusters_to_distill (get_already_distilled_note_ids s) clusters)).map
        (fun n => DistilledNote.mk (embed_document embed_one n.doc) n.source_ids)).map
        (fun n => (n.doc.doc_id, n.source_ids)))
      (((distill_knowledge_aux analysis_oracle uuids 2 0
        (filter_clusters_to_distill (get_already_distilled_note_ids s) clusters)).map
        (fun n => DistilledNote.mk (embed_document embed_one n.doc) n.source_ids)).map
        (fun n => n.doc))
      uuids s ids sFin hsaveok
  rw [hsaveok] at hrun1
  dsimp only at hrun1
  simp only [Except.ok.injEq] at hrun1
  subst hrun1
  by_cases hk0 : filter_clusters_to_distill
      (get_already_distilled_note_ids s) clusters = []
  · -- nothing was distilled; the store is unchanged
    have hdocs_nil : ((distill_knowledge_aux analysis_oracle uuids 2 0
        (filter_clusters_to_distill (get_already_distilled_note_ids s) clusters)).map
        (fun n => DistilledNote.mk (embed_document embed_one n.doc) n.source_ids)).map
        (fun n => n.doc) = [] := by
      rw [hk0]
      rfl
    obtain ⟨hseq, -⟩ := hnil hdocs_nil
    subst hseq
    refine ⟨hk0, fun oracle2 uuids2 embed2 => distillation_stage_noop _ _ _ _ _ hk0⟩
  · -- something was distilled; all its member ids are now covered
    have hdocs_ne : ¬ (((distill_knowledge_aux analysis_oracle uuids 2 0
        (filter_clusters_to_distill (get_already_distilled_note_ids s) clusters)).map
        (fun n => DistilledNote.mk (embed_document embed_one n.doc) n.source_ids)).map
        (fun n => n.doc) = []) := by
      obtain ⟨cl, hcl⟩ := List.exists_mem_of_ne_nil _ hk0
      obtain ⟨note, hn, -⟩ := hcover cl hcl
      intro habs
      rw [List.map_eq_nil_iff, List.map_eq_nil_iff] at habs
      rw [habs] at hn
      cases hn
    have hclean := hcons hdocs_ne
    have hcap2 : (s.cleanRows ++ newRows).length ≤ 10000 := by
      have : sFin.cleanRows = s.cleanRows ++ newRows := by
        unfold KnowledgeStore.cleanRows
        rw [hclean]
        rfl
      rw [this] at hcap
      exact hcap
    have hsub := already_subset s sFin newRows hclean hcap2
    -- every member id of every kept cluster is in the new already set
    have hkeptmem : ∀ cl ∈ filter_clusters_to_distill
        (get_already_distilled_note_ids s) clusters,
        ∀ d ∈ cl, d.doc_id ∈ get_already_distilled_note_ids sFin := by
      intro cl hcl d hd
      obtain ⟨note, hn, hsrc⟩ := hcover cl hcl
      have hn2 : DistilledNote.mk (embed_document embed_one note.doc) note.source_ids ∈
          (distill_knowledge_aux analysis_oracle uuids 2 0
            (filter_clusters_to_distill (get_already_distilled_note_ids s) clusters)).map
            (fun n => DistilledNote.mk (embed_document embed_one n.doc) n.source_ids) :=
        List.mem_map_of_mem _ hn
      have hd2 : embed_document embed_one note.doc ∈
          ((distill_knowledge_aux analysis_oracle uuids 2 0
            (filter_clusters_to_distill (get_already_distilled_note_ids s) clusters)).map
            (fun n => DistilledNote.mk (embed_document embed_one n.doc) n.source_ids)).map
            (fun n => n.doc) :=
        List.mem_map_of_mem (fun n => n.doc) hn2
      obtain ⟨row, hrow, hratt⟩ := hmem _ hd2
      have hlook := lookup_source_id_map _ hnodup2 _ hn2
      dsimp only at hlook hratt
      rw [hlook] at hratt
      dsimp only [Option.getD] at hratt
      refine mem_get_already sFin _ hclean hcap2 row
        (List.mem_append.mpr (Or.inr hrow)) d.doc_id ?_
      rw [hratt, hsrc]
      exact List.mem_map_of_mem _ hd
    have hfilter2 : filter_clusters_to_distill
        (get_already_distilled_note_ids sFin) clusters = [] := by
      unfold filter_clusters_to_distill
      rw [List.filter_eq_nil_iff]
      intro cl hcl
      intro habs
      have h2 : 2 ≤ ((cl.map (fun d => d.doc_id)).filter
          (fun i => !((get_already_distilled_note_ids sFin).contains i))).length :=
        of_decide_eq_true habs
      by_cases hclk : cl ∈ filter_clusters_to_distill
          (get_already_distilled_note_ids s) clusters
      · have hall := hkeptmem cl hclk
        have hzero : (cl.map (fun d => d.doc_id)).filter
            (fun i => !((get_already_distilled_note_ids sFin).contains i)) = [] := by
          rw [List.filter_eq_nil_iff]
          intro x hx
          obtain ⟨d, hd, rfl⟩ := List.mem_map.mp hx
          simp [hall d hd]
        rw [hzero] at h2
        simp at h2
      · have hlt1 : ¬ (2 ≤ ((cl.map (fun d => d.doc_id)).filter
            (fun i => !((get_already_distilled_note_ids s).contains i))).length) := by
          intro hc
          apply hclk
          unfold filter_clusters_to_distill
          rw [List.mem_filter]
          exact ⟨hcl, decide_eq_true hc⟩
        have hmono : ((cl.map (fun d => d.doc_id)).filter
            (fun i => !((get_already_distilled_note_ids sFin).contains i))).Sublist
            ((cl.map (fun d => d.doc_id)).filter
            (fun i => !((get_already_distilled_note_ids s).contains i))) := by
          apply List.monotone_filter_right
          intro a ha
          have h1 : a ∉ get_already_distilled_note_ids sFin := by simpa using ha
          have h2 : a ∉ get_already_distilled_note_ids s :=
            fun hmem => h1 (hsub a hmem)
          simpa using h2
        have := hmono.length_le
        omega
    exact ⟨hfilter2, fun oracle2 uuids2 embed2 =>
      distillation_stage_noop _ _ _ _ _ hfilter2⟩

/-- Claim C7, as stated, is FALSE on the code: when the first run's concept
analysis fails on the (single, qualifying) cluster, distiller.py falls back to
the zero-concept degenerate analysis, `distill_single_cluster` returns None,
and the run completes successfully having written NOTHING — so nothing marks
the cluster's member ids as distilled. A second run over the SAME cluster list
(no new AtomicNotes were added: the store is unchanged) with a now-succeeding
analysis creates one NEW DistilledNote, refuting the unconditional
"re-running produces no new distilled notes". -/
theorem claim_C7_counterexample :
    distillation_stage analysisOracleFailW uuidsC7w embedOneC7w clustersC7w
      emptyStore = .ok emptyStore ∧
    distillation_stage oracleC7w uuidsC7w embedOneC7w clustersC7w
      emptyStore = .ok storeC7w ∧
    emptyStore.cleanRows.length = 0 ∧
    storeC7w.cleanRows.length = 1 := by
  refine ⟨rfl, rfl, rfl, ?_⟩
  decide

/-- Witness for `claim_C7`: after one successful distillation run over a
single two-note cluster starting from the empty store, the second run is a
no-op, with every hypothesis discharged at the concrete input. -/
theorem claim_C7_witness :
    filter_clusters_to_distill (get_already_distilled_note_ids storeC7w)
      clustersC7w = [] ∧
    ∀ (oracle2 : List Document → Except String ConceptAnalysis)
      (uuids2 : Nat → String) (embed2 : String → Except String Vec),
      distillation_stage oracle2 uuids2 embed2 clustersC7w storeC7w =
        .ok storeC7w :=
  claim_C7 oracleC7w uuidsC7w embedOneC7w clustersC7w emptyStore storeC7w
    (by
      intro i j h
      have h2 := congrArg (fun t => t.toList.length) h
      simp only [uuidsC7w, String.toList, List.length_replicate] at h2
      omega)
    (by
      intro cl hcl
      exact ⟨⟨"Shared Theme", [⟨"core concept", "integrated explanation", [], ""⟩]⟩,
        rfl, by decide⟩)
    rfl
    (by decide)
